import Mathlib

/-!
# Form gateway (`src/api/app.js`)

A shallow embedding of the single HTTP handler of the repository and of the two
tables it works on, followed by the properties proved about it.

Layout of the embedding:

* JavaScript values as produced by `JSON.parse`, with the coercions the handler
  applies to them (`String(x)`, `Number(x)`, `x || y`, `.trim()`);
* the store: the two tables created by `ensureSchema`, with the constraints of
  their DDL (primary keys, `NOT NULL`, `INT` columns, the `SERIAL` id), and one
  function per SQL statement of the handler;
* the handler itself, one function per action, in source order.

Numbers: a finite JavaScript number is a double, hence a rational; the model
carries finite numbers as rationals (every double is one).  Strings are sequences
of Unicode characters (no unpaired surrogate).  The resource limits of the
runtime (stack depth, string length, memory) are not modelled.

The database refuses a text parameter that contains U+0000, a number that is not
a 32-bit integer where the column is `INT` or not a 64-bit integer where it is
`BIGINT`, a row that breaks `NOT NULL` or a primary key, and an id beyond
2147483647; each refusal is thrown into the `catch` of the handler.
-/

set_option autoImplicit false

namespace FormGateway

/-! ## JavaScript numbers and strings -/

/-- A JavaScript number: NaN, the two infinities, or a finite value. -/
inductive JsNum
  | nan
  | posInf
  | negInf
  | fin (q : ℚ)
  deriving DecidableEq, Repr

/-- The test `Number.isFinite(n)` for a value that is a number. -/
def JsNum.isFinite : JsNum → Bool
  | .fin _ => true
  | _ => false

/-- White space and line terminators, the characters removed by `trim` and skipped by `Number`. -/
def isJsSpace (c : Char) : Bool :=
  let n := c.toNat
  n = 0x09 || n = 0x0A || n = 0x0B || n = 0x0C || n = 0x0D || n = 0x20 || n = 0xA0 ||
  n = 0x1680 || (0x2000 ≤ n && n ≤ 0x200A) || n = 0x2028 || n = 0x2029 || n = 0x202F ||
  n = 0x205F || n = 0x3000 || n = 0xFEFF

def trimChars (cs : List Char) : List Char :=
  ((cs.dropWhile isJsSpace).reverse.dropWhile isJsSpace).reverse

/-- The method `String.prototype.trim`. -/
def trim (s : String) : String := ⟨trimChars s.data⟩

/-- Nearest double to `p / q` for `0 < p`, `0 < q`, ties to even; `none` on overflow. -/
def roundDouble (p q : Nat) : Option ℚ :=
  let d : Int := (Nat.log2 p : Int) - (Nat.log2 q : Int)
  let e : Int := if q * 2 ^ d.toNat ≤ p * 2 ^ (-d).toNat then d else d - 1
  let u : Int := max (e - 52) (-1074)
  let N := p * 2 ^ (-u).toNat
  let D := q * 2 ^ u.toNat
  let r := N / D
  let m := if D < 2 * (N % D) ∨ (2 * (N % D) = D ∧ r % 2 = 1) then r + 1 else r
  if 2 ^ 1024 ≤ m * 2 ^ u.toNat then none
  else some (mkRat (m * 2 ^ u.toNat) (2 ^ (-u).toNat))

/-- The number denoted by the sign and the non-negative rational `p / q`. -/
def toDouble (neg : Bool) (p q : Nat) : JsNum :=
  if p = 0 then .fin 0
  else match roundDouble p q with
    | none => if neg then .negInf else .posInf
    | some x => .fin (if neg then -x else x)

def digitVal (c : Char) : Nat :=
  if '0' ≤ c ∧ c ≤ '9' then c.toNat - 48
  else if 'a' ≤ c ∧ c ≤ 'f' then c.toNat - 87
  else if 'A' ≤ c ∧ c ≤ 'F' then c.toNat - 55
  else 36

def digitsValue (radix : Nat) (cs : List Char) : Nat :=
  cs.foldl (fun acc c => acc * radix + digitVal c) 0

def allDigits (radix : Nat) (cs : List Char) : Bool :=
  !cs.isEmpty && cs.all (fun c => digitVal c < radix)

def radixLiteral (radix : Nat) (cs : List Char) : JsNum :=
  if allDigits radix cs then toDouble false (digitsValue radix cs) 1 else .nan

def exponentPart : List Char → Option Int
  | [] => some 0
  | c :: t =>
    if c = 'e' ∨ c = 'E' then
      match t with
      | '+' :: ds => if allDigits 10 ds then some (digitsValue 10 ds) else none
      | '-' :: ds => if allDigits 10 ds then some (-(digitsValue 10 ds : Int)) else none
      | ds => if allDigits 10 ds then some (digitsValue 10 ds) else none
    else none

def isDec (c : Char) : Bool := digitVal c < 10

def unsignedDecimal (neg : Bool) (cs : List Char) : JsNum :=
  if cs = "Infinity".data then (if neg then .negInf else .posInf)
  else
    let ip := cs.takeWhile isDec
    let r1 := cs.dropWhile isDec
    let fp := match r1 with
      | '.' :: t => t.takeWhile isDec
      | _ => []
    let r2 := match r1 with
      | '.' :: t => t.dropWhile isDec
      | _ => r1
    if ip.isEmpty ∧ fp.isEmpty then .nan
    else match exponentPart r2 with
      | none => .nan
      | some ex =>
        let sh : Int := ex - fp.length
        toDouble neg (digitsValue 10 (ip ++ fp) * 10 ^ sh.toNat) (10 ^ (-sh).toNat)

/-- The conversion `Number(s)` of a string. -/
def stringToNumber (s : String) : JsNum :=
  match trimChars s.data with
  | [] => .fin 0
  | '0' :: 'x' :: ds => radixLiteral 16 ds
  | '0' :: 'X' :: ds => radixLiteral 16 ds
  | '0' :: 'o' :: ds => radixLiteral 8 ds
  | '0' :: 'O' :: ds => radixLiteral 8 ds
  | '0' :: 'b' :: ds => radixLiteral 2 ds
  | '0' :: 'B' :: ds => radixLiteral 2 ds
  | '+' :: cs => unsignedDecimal false cs
  | '-' :: cs => unsignedDecimal true cs
  | cs => unsignedDecimal false cs

def numDigits (n : Nat) : Nat := (Nat.toDigits 10 n).length

/-- The integers `s` of `k` digits next to `(p / q) / 10^(n-k)` for which `s × 10^(n-k)` reads
back as the double `p / q`, each paired with the exponent `n`. -/
def candidatesAt (p q : Nat) (n : Int) (k : Nat) : List (Int × Nat) :=
  let sh : Int := n - k
  let lo := p * 10 ^ (-sh).toNat / (q * 10 ^ sh.toNat)
  ([lo, lo + 1].filter (fun s => 10 ^ (k - 1) ≤ s && s < 10 ^ k &&
    roundDouble (s * 10 ^ sh.toNat) (10 ^ (-sh).toNat) == some (mkRat p q))).map
    (fun s => (n, s))

/-- Distance between `s × 10^(n-k)` and `p / q`, for the candidate `c = (n, s)`. -/
def digitError (p q k : Nat) (c : Int × Nat) : ℚ :=
  |(c.2 : ℚ) * 10 ^ (c.1 - (k : Int)) - mkRat p q|

/-- The candidate closest to `p / q`; of two equally close, the one whose `s` is even. -/
def closest (p q k : Nat) : List (Int × Nat) → Option (Int × Nat)
  | [] => none
  | c :: cs =>
    match closest p q k cs with
    | none => some c
    | some d =>
      if digitError p q k c < digitError p q k d ∨
          (digitError p q k c = digitError p q k d ∧ c.2 % 2 = 0) then some c
      else some d

/-- Shortest digit string that reads back as `p / q`, where `10^(n-1) ≤ p / q < 10^n`: tries
`k = 18 - fuel, …, 17` digits, the value `s × 10^(m-k)` having `m = n` or, when it is rounded
up to a power of ten, `m = n + 1`; returns `(m, k, s)`. -/
def shortestDigits (p q : Nat) (n : Int) : Nat → Int × Nat × Nat
  | 0 => (n, 17, p * 10 ^ (17 - n).toNat / (q * 10 ^ (n - 17).toNat))
  | fuel + 1 =>
    let k := 17 - fuel
    match closest p q k (candidatesAt p q n k ++ candidatesAt p q (n + 1) k) with
    | some c => (c.1, k, c.2)
    | none => shortestDigits p q n fuel

def zeros (n : Nat) : List Char := List.replicate n '0'

/-- Decimal text of the positive double `p / q`. -/
def positiveToString (p q : Nat) : String :=
  let est : Int := (numDigits p : Int) - (numDigits q : Int)
  let n0 : Int := if q * 10 ^ est.toNat ≤ p * 10 ^ (-est).toNat then est + 1 else est
  let (n, k, s) := shortestDigits p q n0 17
  let ds := Nat.toDigits 10 s
  if (k : Int) ≤ n ∧ n ≤ 21 then ⟨ds ++ zeros (n - k).toNat⟩
  else if 0 < n ∧ n ≤ 21 then ⟨ds.take n.toNat ++ '.' :: ds.drop n.toNat⟩
  else if -6 < n ∧ n ≤ 0 then ⟨'0' :: '.' :: zeros (-n).toNat ++ ds⟩
  else
    let e : Int := n - 1
    let ex : List Char := (if e < 0 then '-' else '+') :: Nat.toDigits 10 e.natAbs
    if k = 1 then ⟨ds ++ 'e' :: ex⟩ else ⟨ds.take 1 ++ '.' :: ds.drop 1 ++ 'e' :: ex⟩

/-- The conversion `String(n)` of a number. -/
def numberToString : JsNum → String
  | .nan => "NaN"
  | .posInf => "Infinity"
  | .negInf => "-Infinity"
  | .fin q =>
    if q = 0 then "0"
    else if q < 0 then "-" ++ positiveToString q.num.natAbs q.den
    else positiveToString q.num.natAbs q.den

/-! ## JavaScript values -/

/-- What the handler body can throw: a `TypeError` of the language (a coercion of an object
that has no primitive value, a property read on `null`), or an error of the database: a text
parameter with U+0000, a parameter that is not a 32-bit integer, an exhausted id sequence, a
null in a `NOT NULL` column, a duplicate primary key. -/
inductive Thrown
  | typeError
  | invalidText
  | invalidInteger
  | sequenceExhausted
  | notNullViolation
  | uniqueViolation
  deriving DecidableEq, Repr

deriving instance DecidableEq for Except

/-- A value as `JSON.parse` builds it. -/
inductive JsVal
  | undefined
  | null
  | bool (b : Bool)
  | num (n : JsNum)
  | str (s : String)
  | arr (items : List JsVal)
  | obj (props : List (String × JsVal))

/-- Truthiness, as tested by `||` and `!`. -/
def truthy : JsVal → Bool
  | .undefined => false
  | .null => false
  | .bool b => b
  | .num .nan => false
  | .num (.fin q) => decide (q ≠ 0)
  | .num _ => true
  | .str s => decide (s ≠ "")
  | .arr _ => true
  | .obj _ => true

/-- The expression `a || b`. -/
def jsOr (a b : JsVal) : JsVal := if truthy a then a else b

def hasOwn (props : List (String × JsVal)) (k : String) : Bool :=
  props.any (fun p => p.1 = k)

/-- The expression `v.k` for a value that is neither null nor undefined: an own property of
an object, otherwise undefined (none of the names the handler reads is inherited).  The
properties are listed as the JSON text has them; of two with the same name, `JSON.parse`
keeps the later one. -/
def field (v : JsVal) (k : String) : JsVal :=
  match v with
  | .obj props =>
    match (props.filter (fun p => p.1 = k)).getLast? with
    | some p => p.2
    | none => .undefined
  | _ => .undefined

mutual
/-- The conversion `String(v)`.  An object parsed from JSON has no callable `toString` of its
own: when it has an own property of that name the conversion throws, otherwise the inherited
method answers. -/
def toStr : JsVal → Except Thrown String
  | .undefined => .ok "undefined"
  | .null => .ok "null"
  | .bool b => .ok (if b then "true" else "false")
  | .num n => .ok (numberToString n)
  | .str s => .ok s
  | .arr items => joinItems items
  | .obj props => if hasOwn props "toString" then .error .typeError else .ok "[object Object]"
termination_by structural v => v
/-- The call `items.join(",")`: null and undefined elements give the empty string. -/
def joinItems : List JsVal → Except Thrown String
  | [] => .ok ""
  | x :: rest =>
    match (match x with
      | .undefined => Except.ok ""
      | .null => Except.ok ""
      | v => toStr v), joinItems rest with
    | .ok a, .ok b => .ok (if rest.isEmpty then a else a ++ "," ++ b)
    | .error e, _ => .error e
    | _, .error e => .error e
termination_by structural items => items
end

/-- The conversion `Number(v)`. -/
def toNum : JsVal → Except Thrown JsNum
  | .undefined => .ok .nan
  | .null => .ok (.fin 0)
  | .bool b => .ok (.fin (if b then 1 else 0))
  | .num n => .ok n
  | .str s => .ok (stringToNumber s)
  | v => (toStr v).map stringToNumber

/-- The expression `String(body.k || "").trim()`. -/
def textField (body : JsVal) (k : String) : Except Thrown String :=
  (toStr (jsOr (field body k) (.str ""))).map trim

/-- The expression `a === "lit"` for a string literal. -/
def strictEq (a : JsVal) (lit : String) : Bool :=
  match a with
  | .str s => decide (s = lit)
  | _ => false

/-! ## The store -/

/-- A row of `form_tokens` (lines 16-22). -/
structure TokenRow where
  token : String
  guildId : String
  userId : String
  used : Bool
  createdAt : Int
  deriving DecidableEq, Repr

/-- A row of `form_submissions` (lines 24-36). -/
structure Submission where
  id : Int
  guildId : String
  userId : String
  discordTag : Option String
  nick : String
  idade : Int
  motivo : String
  linkBonde : String
  status : String
  createdAt : Int
  logged : Bool
  deriving DecidableEq, Repr

/-- The two tables, rows in insertion order, and the last value handed out by the sequence
behind `id SERIAL`. -/
structure Store where
  form_tokens : List TokenRow
  form_submissions : List Submission
  idSeq : Int
  deriving DecidableEq, Repr

/-- The statements `CREATE TABLE IF NOT EXISTS` of `ensureSchema`: the tables of a store
exist, so nothing changes. -/
def ensureSchema (s : Store) : Store := s

/-- The text contains the character U+0000. -/
def hasNul (v : String) : Bool := v.data.any (fun c => c.toNat = 0)

/-- A string bound to a parameter compared with or stored in a `TEXT` column: the server
refuses a text that contains U+0000. -/
def bindText (v : String) : Except Thrown String :=
  if hasNul v then .error .invalidText else .ok v

/-- A string or `null` bound to a `TEXT` parameter; `null` is bound as it is. -/
def bindNullable (v : Option String) : Except Thrown (Option String) :=
  match v with
  | none => .ok none
  | some t => (bindText t).map some

/-- A number bound to a parameter compared with or stored in an `INT` column: the driver sends
the text `String(n)` and the server reads it as a 32-bit integer, which fails unless `n` is an
integer in range. -/
def bindInt (n : JsNum) : Except Thrown Int :=
  match n with
  | .fin q =>
    if q.den = 1 ∧ -2147483648 ≤ q.num ∧ q.num ≤ 2147483647 then .ok q.num
    else .error .invalidInteger
  | _ => .error .invalidInteger

/-- An integer bound to a parameter stored in a `BIGINT` column: the server reads its decimal
text as a 64-bit integer. -/
def bindBigInt (n : Int) : Except Thrown Int :=
  if -9223372036854775808 ≤ n ∧ n ≤ 9223372036854775807 then .ok n
  else .error .invalidInteger

/-- Line 85: `INSERT INTO form_tokens(token,guildId,userId,used,createdAt) VALUES(…,FALSE,…)`.
The parameters are bound in order, then the row is refused when its token, the primary key,
is in the table. -/
def insertToken (s : Store) (token guildId userId : String) (createdAt : Int) :
    Except Thrown Store :=
  match bindText token, bindText guildId, bindText userId, bindBigInt createdAt with
  | .ok tok, .ok g, .ok u, .ok ts =>
    if s.form_tokens.any (fun r => r.token = tok) then .error .uniqueViolation
    else .ok { s with form_tokens := s.form_tokens ++ [⟨tok, g, u, false, ts⟩] }
  | .error e, _, _, _ => .error e
  | _, .error e, _, _ => .error e
  | _, _, .error e, _ => .error e
  | _, _, _, .error e => .error e

/-- Line 102: `SELECT token, guildId, userId, used FROM form_tokens WHERE token=…`. -/
def selectToken (s : Store) (token : String) : Except Thrown (List TokenRow) :=
  match bindText token with
  | .error e => .error e
  | .ok tok => .ok (s.form_tokens.filter (fun r => r.token = tok))

/-- Line 106: `UPDATE form_tokens SET used=TRUE WHERE token=…`. -/
def markTokenUsed (s : Store) (token : String) : Except Thrown Store :=
  match bindText token with
  | .error e => .error e
  | .ok tok =>
    .ok { s with form_tokens :=
      s.form_tokens.map (fun r => if r.token = tok then { r with used := true } else r) }

/-- The parameters of the insert of lines 111-115 once bound. -/
structure SubmissionParams where
  guildId : Option String
  userId : Option String
  discordTag : Option String
  nick : String
  idade : Int
  motivo : String
  linkBonde : String
  createdAt : Int
  deriving DecidableEq, Repr

/-- The parameters of lines 111-115 are bound in order; the first one refused is the error. -/
def bindSubmission (guildId userId discordTag : Option String) (nick : String)
    (idade : JsNum) (motivo linkBonde : String) (createdAt : Int) :
    Except Thrown SubmissionParams :=
  match bindNullable guildId, bindNullable userId, bindNullable discordTag, bindText nick,
    bindInt idade, bindText motivo, bindText linkBonde, bindBigInt createdAt with
  | .ok g, .ok u, .ok tag, .ok n, .ok age, .ok m, .ok l, .ok ts =>
    .ok ⟨g, u, tag, n, age, m, l, ts⟩
  | .error e, _, _, _, _, _, _, _ => .error e
  | _, .error e, _, _, _, _, _, _ => .error e
  | _, _, .error e, _, _, _, _, _ => .error e
  | _, _, _, .error e, _, _, _, _ => .error e
  | _, _, _, _, .error e, _, _, _ => .error e
  | _, _, _, _, _, .error e, _, _ => .error e
  | _, _, _, _, _, _, .error e, _ => .error e
  | _, _, _, _, _, _, _, .error e => .error e

/-- Lines 111-115: `INSERT INTO form_submissions(…) VALUES(…,'pending',…,FALSE) RETURNING id`.
The parameters are bound first; then the id is drawn from the sequence of `id SERIAL`, which
ends at 2147483647 and stays advanced when the row is refused (`NOT NULL`, primary key). -/
def insertSubmission (s : Store) (guildId userId discordTag : Option String) (nick : String)
    (idade : JsNum) (motivo linkBonde : String) (createdAt : Int) : Except Thrown Int × Store :=
  match bindSubmission guildId userId discordTag nick idade motivo linkBonde createdAt with
  | .error e => (.error e, s)
  | .ok p =>
    if 2147483647 ≤ s.idSeq then (.error .sequenceExhausted, s)
    else
      let id := s.idSeq + 1
      let s1 := { s with idSeq := id }
      match p.guildId, p.userId with
      | some g, some u =>
        if s.form_submissions.any (fun r => r.id = id) then (.error .uniqueViolation, s1)
        else (.ok id, { s1 with form_submissions := s.form_submissions ++
          [⟨id, g, u, p.discordTag, p.nick, p.idade, p.motivo, p.linkBonde, "pending",
            p.createdAt, false⟩] })
      | _, _ => (.error .notNullViolation, s1)

/-- Line 121: `SELECT * FROM form_submissions WHERE status=… ORDER BY id DESC LIMIT 100`. -/
def selectByStatus (s : Store) (status : String) : Except Thrown (List Submission) :=
  match bindText status with
  | .error e => .error e
  | .ok st => .ok (((s.form_submissions.filter (fun r => r.status = st)).insertionSort
      (fun a b => b.id ≤ a.id)).take 100)

/-- Line 129: `UPDATE form_submissions SET status=… WHERE id=…`. -/
def updateStatus (s : Store) (decision : String) (id : JsNum) : Except Thrown Store :=
  match bindText decision, bindInt id with
  | .ok d, .ok i =>
    .ok { s with form_submissions :=
      s.form_submissions.map (fun r => if r.id = i then { r with status := d } else r) }
  | .error e, _ => .error e
  | _, .error e => .error e

/-- Lines 137-142: `SELECT * FROM form_submissions WHERE guildId=… AND status='pending' AND
logged=FALSE ORDER BY id ASC LIMIT 10`. -/
def selectPending (s : Store) (guildId : String) : Except Thrown (List Submission) :=
  match bindText guildId with
  | .error e => .error e
  | .ok g => .ok (((s.form_submissions.filter
      (fun r => r.guildId = g ∧ r.status = "pending" ∧ r.logged = false)).insertionSort
      (fun a b => a.id ≤ b.id)).take 10)

/-- Line 149: `UPDATE form_submissions SET logged=TRUE WHERE id=…`. -/
def updateLogged (s : Store) (id : JsNum) : Except Thrown Store :=
  match bindInt id with
  | .error e => .error e
  | .ok i =>
    .ok { s with form_submissions :=
      s.form_submissions.map (fun r => if r.id = i then { r with logged := true } else r) }

/-! ## The handler -/

/-- The configuration read from `process.env`. -/
structure Env where
  ADMIN_API_KEY : Option String
  ALLOWED_ORIGINS : Option String

/-- What the handler reads of a request: the method, the `authorization` header, and the
payload as `JSON.parse` reads it (`none` when the payload is empty or is not JSON). -/
structure Request where
  method : String
  authorization : Option String
  payload : Option JsVal

/-- The JSON document of a response. -/
inductive Payload
  | empty
  | error (msg : String)
  | thrown (e : Thrown)
  | ok
  | okToken (token : String)
  | okId (id : Int)
  | okItems (items : List Submission)
  deriving DecidableEq, Repr

structure Response where
  status : Nat
  body : Payload
  deriving DecidableEq, Repr

/-- Lines 3-7. -/
def json (status : Nat) (body : Payload) : Response := ⟨status, body⟩

/-- Lines 9-13 with line 66: the value of `Access-Control-Allow-Origin`, the same on every
response. -/
def cors (env : Env) : String :=
  let allowed := match env.ALLOWED_ORIGINS with
    | some o => if o = "" then "*" else o
    | none => "*"
  if allowed = "" then "*" else allowed

def chars : String := "ABCDEFGHJKLMNPQRSTUVWXYZ23456789"

/-- The expression `chars[Math.floor(r * chars.length)]` as appended to a string: a lookup
outside the string gives `undefined`. -/
def pick (r : ℚ) : String :=
  let idx : Int := ⌊r * (chars.length : ℚ)⌋
  if 0 ≤ idx then
    match chars.data.get? idx.toNat with
    | some c => ⟨[c]⟩
    | none => "undefined"
  else "undefined"

/-- Lines 39-44; `rnd i` is the result of the call number `i` of `Math.random()`. -/
def randToken (rnd : Nat → ℚ) : String :=
  (List.range 24).foldl (fun out i => out ++ pick (rnd i)) ""

/-- The result of `requireAuth`. -/
structure AuthResult where
  ok : Bool
  error : Option String
  deriving DecidableEq, Repr

def startsWith (s p : String) : Bool := s.data.take p.data.length = p.data

def slice (s : String) (n : Nat) : String := ⟨s.data.drop n⟩

/-- Lines 46-53. -/
def requireAuth (env : Env) (req : Request) : AuthResult :=
  match env.ADMIN_API_KEY with
  | none => ⟨false, some "ADMIN_API_KEY não configurada na Vercel"⟩
  | some key =>
    if key = "" then ⟨false, some "ADMIN_API_KEY não configurada na Vercel"⟩
    else
      let auth := req.authorization.getD ""
      let got := if startsWith auth "Bearer " then slice auth 7 else ""
      if got ≠ key then ⟨false, some "Unauthorized"⟩
      else ⟨true, none⟩

/-- Lines 55-63: an empty or unreadable payload is the empty object. -/
def readBody (req : Request) : JsVal := req.payload.getD (.obj [])

/-- Lines 80-87. -/
def createToken (body : JsVal) (rnd : Nat → ℚ) (now : Int) (s : Store) :
    Except Thrown Response × Store :=
  match textField body "guildId", textField body "userId" with
  | .ok guildId, .ok userId =>
    if guildId = "" ∨ userId = "" then (.ok (json 400 (.error "guildId/userId obrigatórios")), s)
    else
      let token := randToken rnd
      match insertToken s token guildId userId now with
      | .error e => (.error e, s)
      | .ok s1 => (.ok (json 200 (.okToken token)), s1)
  | .error e, _ => (.error e, s)
  | _, .error e => (.error e, s)

/-- The fields of a `submit` request after lines 91-96. -/
structure SubmitFields where
  token : String
  discordTag : Option String
  nick : String
  idade : JsNum
  motivo : String
  linkBonde : String
  deriving DecidableEq, Repr

/-- Lines 91-96. -/
def submitFields (body : JsVal) : Except Thrown SubmitFields :=
  match textField body "token", textField body "discordTag", textField body "nick",
    toNum (field body "idade"), textField body "motivo", textField body "linkBonde" with
  | .ok token, .ok discordTag, .ok nick, .ok idade, .ok motivo, .ok linkBonde =>
    .ok ⟨token, if discordTag = "" then none else some discordTag, nick, idade, motivo,
      linkBonde⟩
  | .error e, _, _, _, _, _ => .error e
  | _, .error e, _, _, _, _ => .error e
  | _, _, .error e, _, _, _ => .error e
  | _, _, _, .error e, _, _ => .error e
  | _, _, _, _, .error e, _ => .error e
  | _, _, _, _, _, .error e => .error e

/-- Lines 108-109, `t.rows[0].guildid || t.rows[0].guildId`: the driver names the columns in
lower case, so the second operand is undefined, and an empty text is falsy. -/
def rowText (v : String) : Option String := if v = "" then none else some v

/-- Lines 89-117. -/
def submit (body : JsVal) (now : Int) (s : Store) : Except Thrown Response × Store :=
  match submitFields body with
  | .error e => (.error e, s)
  | .ok f =>
    if f.token = "" ∨ f.nick = "" ∨ ¬ f.idade.isFinite ∨ f.motivo = "" ∨ f.linkBonde = "" then
      (.ok (json 400 (.error "Campos inválidos")), s)
    else
      match selectToken s f.token with
      | .error e => (.error e, s)
      | .ok [] => (.ok (json 404 (.error "Token inválido")), s)
      | .ok (t :: _) =>
        if t.used then (.ok (json 410 (.error "Token já usado")), s)
        else
          match markTokenUsed s f.token with
          | .error e => (.error e, s)
          | .ok s1 =>
            match insertSubmission s1 (rowText t.guildId) (rowText t.userId) f.discordTag
              f.nick f.idade f.motivo f.linkBonde now with
            | (.error e, s2) => (.error e, s2)
            | (.ok id, s2) => (.ok (json 200 (.okId id)), s2)

/-- Lines 119-123. -/
def list (body : JsVal) (s : Store) : Except Thrown Response × Store :=
  match toStr (jsOr (field body "status") (.str "pending")) with
  | .error e => (.error e, s)
  | .ok status =>
    match selectByStatus s status with
    | .error e => (.error e, s)
    | .ok rows => (.ok (json 200 (.okItems rows)), s)

/-- Lines 125-131 (the action `decide`). -/
def decideAction (body : JsVal) (s : Store) : Except Thrown Response × Store :=
  match toNum (field body "id"), textField body "decision" with
  | .ok id, .ok decision =>
    if ¬ id.isFinite ∨ ¬ (decision = "approved" ∨ decision = "rejected") then
      (.ok (json 400 (.error "id/decision inválidos")), s)
    else
      match updateStatus s decision id with
      | .error e => (.error e, s)
      | .ok s1 => (.ok (json 200 .ok), s1)
  | .error e, _ => (.error e, s)
  | _, .error e => (.error e, s)

/-- Lines 134-144. -/
def pollForLogs (body : JsVal) (s : Store) : Except Thrown Response × Store :=
  match textField body "guildId" with
  | .error e => (.error e, s)
  | .ok guildId =>
    if guildId = "" then (.ok (json 400 (.error "guildId obrigatório")), s)
    else
      match selectPending s guildId with
      | .error e => (.error e, s)
      | .ok rows => (.ok (json 200 (.okItems rows)), s)

/-- Lines 146-151. -/
def markLogged (body : JsVal) (s : Store) : Except Thrown Response × Store :=
  match toNum (field body "id") with
  | .error e => (.error e, s)
  | .ok id =>
    if ¬ id.isFinite then (.ok (json 400 (.error "id inválido")), s)
    else
      match updateLogged s id with
      | .error e => (.error e, s)
      | .ok s1 => (.ok (json 200 .ok), s1)

def isNullish : JsVal → Bool
  | .null => true
  | .undefined => true
  | _ => false

/-- Lines 78-153: reading `body.action` throws on `null`; then the actions in source order. -/
def dispatch (body : JsVal) (rnd : Nat → ℚ) (now : Int) (s : Store) :
    Except Thrown Response × Store :=
  if isNullish body then (.error .typeError, s)
  else
    let action := field body "action"
    if strictEq action "createToken" then createToken body rnd now s
    else if strictEq action "submit" then submit body now s
    else if strictEq action "list" then list body s
    else if strictEq action "decide" then decideAction body s
    else if strictEq action "pollForLogs" then pollForLogs body s
    else if strictEq action "markLogged" then markLogged body s
    else (.ok (json 400 (.error "Ação desconhecida")), s)

/-- Lines 75 and 154-156, `try … catch(e)`: a thrown error becomes the response 500 whose
`error` is its message; what the store became before the throw stays. -/
def caught (r : Except Thrown Response × Store) : Response × Store :=
  match r with
  | (.ok res, s) => (res, s)
  | (.error e, s) => (json 500 (.thrown e), s)

/-- Lines 65-157, the exported handler.  `rnd` gives the results of `Math.random()` during the
request and `now` the result of `Date.now()`. -/
def handler (env : Env) (req : Request) (rnd : Nat → ℚ) (now : Int) (s : Store) :
    Response × Store :=
  if req.method = "OPTIONS" then (⟨200, .empty⟩, s)
  else if req.method ≠ "POST" then (json 405 (.error "Use POST"), s)
  else
    let auth := requireAuth env req
    if ¬ auth.ok then (json 401 (.error (auth.error.getD "")), s)
    else
      caught (dispatch (readBody req) rnd now (ensureSchema s))

/-! ## Request sequences and the vocabulary of the statements -/

/-- Everything one invocation of the handler reads besides the store. -/
structure Call where
  env : Env
  req : Request
  rnd : Nat → ℚ
  now : Int

/-- One request handled on store `s`. -/
def call (s : Store) (c : Call) : Response × Store := handler c.env c.req c.rnd c.now s

/-- The store after the requests `cs`, handled one at a time. -/
def run (s : Store) (cs : List Call) : Store := cs.foldl (fun s c => (call s c).2) s

/-- The request is a POST that passes `requireAuth` and whose body has `action === a`. -/
def Reaches (env : Env) (req : Request) (a : String) : Prop :=
  req.method = "POST" ∧ (requireAuth env req).ok = true ∧
    strictEq (field (readBody req) "action") a = true

instance (env : Env) (req : Request) (a : String) : Decidable (Reaches env req a) := by
  unfold Reaches
  infer_instance

/-- Token `t` has a row in `form_tokens` and every row that carries it is used. -/
def Consumed (s : Store) (t : String) : Prop :=
  (∃ r ∈ s.form_tokens, r.token = t) ∧ ∀ r ∈ s.form_tokens, r.token = t → r.used = true

/-- The request is a `decide` that the handler carries out on id `i` with decision `d`: an
authorised POST with action `decide` whose `Number(id)` is the 32-bit integer `i` and whose
trimmed `String(decision)` is `d`, one of `approved` and `rejected`. -/
def DecidesOn (env : Env) (req : Request) (i : Int) (d : String) : Prop :=
  Reaches env req "decide" ∧ textField (readBody req) "decision" = .ok d ∧
    (d = "approved" ∨ d = "rejected") ∧
    ∃ n, toNum (field (readBody req) "id") = .ok n ∧ bindInt n = .ok i

/-! ## `randToken` -/

theorem chars_length : chars.data.length = 32 := by decide

theorem pick_spec (r : ℚ) (h0 : 0 ≤ r) (h1 : r < 1) :
    (0 ≤ ⌊r * 32⌋ ∧ ⌊r * 32⌋ < 32) ∧ ∃ c ∈ chars.data, pick r = ⟨[c]⟩ := by
  have hlen : (chars.length : ℚ) = 32 := by
    have : chars.length = 32 := by decide
    rw [this]; norm_num
  have hnn : (0 : ℤ) ≤ ⌊r * 32⌋ := Int.floor_nonneg.mpr (by positivity)
  have hlt : ⌊r * 32⌋ < 32 := by
    rw [Int.floor_lt]; push_cast; linarith
  refine ⟨⟨hnn, hlt⟩, ?_⟩
  have hidx : (⌊r * 32⌋).toNat < chars.data.length := by
    rw [chars_length]; omega
  refine ⟨chars.data.get ⟨_, hidx⟩, List.get_mem _ _ _, ?_⟩
  simp only [pick, hlen, hnn, if_true]
  rw [List.get?_eq_get hidx]

theorem foldl_pick (rnd : Nat → ℚ) (h : ∀ i, 0 ≤ rnd i ∧ rnd i < 1) (l : List Nat)
    (out : String) :
    ((l.foldl (fun out i => out ++ pick (rnd i)) out).data.length
        = out.data.length + l.length) ∧
    ∀ c ∈ (l.foldl (fun out i => out ++ pick (rnd i)) out).data,
      c ∈ out.data ∨ c ∈ chars.data := by
  induction l generalizing out with
  | nil => exact ⟨by simp, fun c hc => Or.inl hc⟩
  | cons i t ih =>
    obtain ⟨c, hc, hp⟩ := (pick_spec (rnd i) (h i).1 (h i).2).2
    simp only [List.foldl_cons]
    obtain ⟨h1, h2⟩ := ih (out ++ pick (rnd i))
    constructor
    · rw [h1, hp]; simp [String.data_append]; omega
    · intro x hx
      rcases h2 x hx with hx | hx
      · rw [hp] at hx
        simp [String.data_append] at hx
        rcases hx with hx | hx
        · exact Or.inl hx
        · exact Or.inr (hx ▸ hc)
      · exact Or.inr hx

/-! ## From the handler to the actions -/

theorem strictEq_eq {v : JsVal} {a : String} (h : strictEq v a = true) : v = .str a := by
  cases v <;> simp_all [strictEq]

theorem not_nullish_of_action {body : JsVal} {a : String}
    (h : strictEq (field body "action") a = true) : isNullish body = false := by
  cases body <;> simp_all [field, strictEq, isNullish]

theorem handler_reaches {env : Env} {req : Request} {a : String} (h : Reaches env req a)
    (rnd : Nat → ℚ) (now : Int) (s : Store) :
    handler env req rnd now s = caught (dispatch (readBody req) rnd now s) := by
  obtain ⟨hm, ha, _⟩ := h
  simp [handler, hm, ha, ensureSchema]

theorem dispatch_createToken {body : JsVal}
    (h : strictEq (field body "action") "createToken" = true) (rnd : Nat → ℚ) (now : Int)
    (s : Store) : dispatch body rnd now s = createToken body rnd now s := by
  simp [dispatch, not_nullish_of_action h, h]

theorem dispatch_submit {body : JsVal}
    (h : strictEq (field body "action") "submit" = true) (rnd : Nat → ℚ) (now : Int)
    (s : Store) : dispatch body rnd now s = submit body now s := by
  have e := strictEq_eq h
  simp [dispatch, not_nullish_of_action h, e, strictEq]

theorem dispatch_list {body : JsVal}
    (h : strictEq (field body "action") "list" = true) (rnd : Nat → ℚ) (now : Int)
    (s : Store) : dispatch body rnd now s = list body s := by
  have e := strictEq_eq h
  simp [dispatch, not_nullish_of_action h, e, strictEq]

theorem dispatch_decide {body : JsVal}
    (h : strictEq (field body "action") "decide" = true) (rnd : Nat → ℚ) (now : Int)
    (s : Store) : dispatch body rnd now s = decideAction body s := by
  have e := strictEq_eq h
  simp [dispatch, not_nullish_of_action h, e, strictEq]

theorem dispatch_pollForLogs {body : JsVal}
    (h : strictEq (field body "action") "pollForLogs" = true) (rnd : Nat → ℚ) (now : Int)
    (s : Store) : dispatch body rnd now s = pollForLogs body s := by
  have e := strictEq_eq h
  simp [dispatch, not_nullish_of_action h, e, strictEq]

theorem dispatch_markLogged {body : JsVal}
    (h : strictEq (field body "action") "markLogged" = true) (rnd : Nat → ℚ) (now : Int)
    (s : Store) : dispatch body rnd now s = markLogged body s := by
  have e := strictEq_eq h
  simp [dispatch, not_nullish_of_action h, e, strictEq]

/-! ## The database refusals -/

theorem bindText_ok {v : String} (h : hasNul v = false) : bindText v = .ok v := by
  simp [bindText, h]

theorem bindText_error {v : String} (h : hasNul v = true) : bindText v = .error .invalidText := by
  simp [bindText, h]

theorem bindText_eq_ok {v w : String} (h : bindText v = .ok w) : w = v ∧ hasNul v = false := by
  unfold bindText at h
  by_cases hn : hasNul v = true
  · rw [if_pos hn] at h; cases h
  · rw [if_neg hn] at h
    injection h with h
    exact ⟨h.symm, by simpa using hn⟩

theorem bindText_error_eq {v : String} {e : Thrown} (h : bindText v = .error e) :
    e = .invalidText ∧ hasNul v = true := by
  unfold bindText at h
  by_cases hn : hasNul v = true
  · rw [if_pos hn] at h
    injection h with h
    exact ⟨h.symm, hn⟩
  · rw [if_neg hn] at h; cases h

theorem bindBigInt_ok {n : Int}
    (h : -9223372036854775808 ≤ n ∧ n ≤ 9223372036854775807) : bindBigInt n = .ok n := by
  simp [bindBigInt, h]

theorem bindBigInt_eq_ok {n m : Int} (h : bindBigInt n = .ok m) : m = n := by
  unfold bindBigInt at h
  split at h
  · injection h with h; exact h.symm
  · cases h

theorem hasNul_of_mem_chars {v : String} (h : ∀ c ∈ v.data, c ∈ chars.data) :
    hasNul v = false := by
  unfold hasNul
  rw [List.any_eq_false]
  intro c hc
  have hmem := h c hc
  have : ∀ x ∈ chars.data, ¬ (decide (x.toNat = 0) = true) := by decide
  exact this c hmem

/-! ## Claims on `randToken` and `requireAuth` -/

theorem foldl_pick_data (rnd : Nat → ℚ) (h : ∀ i, 0 ≤ rnd i ∧ rnd i < 1) (l : List Nat)
    (out : String) :
    (l.foldl (fun out i => out ++ pick (rnd i)) out).data =
      out.data ++ l.map (fun i => chars.data.getD (⌊rnd i * 32⌋).toNat 'A') := by
  induction l generalizing out with
  | nil => simp
  | cons i t ih =>
    obtain ⟨⟨hnn, hlt⟩, _⟩ := pick_spec (rnd i) (h i).1 (h i).2
    have hidx : (⌊rnd i * 32⌋).toNat < chars.data.length := by
      rw [chars_length]; omega
    have hlen : (chars.length : ℚ) = 32 := by
      have : chars.length = 32 := by decide
      rw [this]; norm_num
    have hp : pick (rnd i) = ⟨[chars.data.getD (⌊rnd i * 32⌋).toNat 'A']⟩ := by
      simp only [pick, hlen, hnn, if_true]
      rw [List.get?_eq_get hidx, List.getD_eq_getElem _ _ hidx]
      rfl
    simp only [List.foldl_cons, List.map_cons]
    rw [ih, hp]
    simp [String.data_append]

theorem createToken_ok_token (body : JsVal) (rnd : Nat → ℚ) (now : Int) (s s1 : Store)
    (res : Response) (h : createToken body rnd now s = (.ok res, s1))
    (hres : res.status = 200) : res.body = .okToken (randToken rnd) := by
  unfold createToken at h
  split at h
  · split at h
    · injection h with h1 _
      injection h1 with h1
      rw [← h1] at hres
      simp [json] at hres
    · dsimp only at h
      generalize randToken rnd = tok at h ⊢
      rename_i guildId userId _ _ _
      generalize insertToken s tok guildId userId now = r at h
      cases r with
      | error e => simp at h
      | ok s2 =>
        simp only [Prod.mk.injEq, Except.ok.injEq] at h
        rw [← h.1]
        simp [json]
  · simp at h
  · simp at h

/-- C10: for draws `0 ≤ r < 1`, `randToken` returns 24 characters, each of the alphabet
`ABCDEFGHJKLMNPQRSTUVWXYZ23456789`, every index `floor(r*32)` lying in `0..31` and the
character number `i` being the one at index `floor(r_i*32)` of the alphabet; every
`createToken` request that answers 200 returns that token; and a `createToken` request with
non-empty trimmed `guildId` and `userId`, free of U+0000, at a time that fits `BIGINT`, whose
token is not yet in the table answers 200 with that token and inserts its row, unused. -/
theorem randToken_alphabet (rnd : Nat → ℚ) (h : ∀ i, 0 ≤ rnd i ∧ rnd i < 1) :
    (randToken rnd).length = 24 ∧
    (∀ c ∈ (randToken rnd).data, c ∈ "ABCDEFGHJKLMNPQRSTUVWXYZ23456789".data) ∧
    (∀ i, 0 ≤ ⌊rnd i * 32⌋ ∧ ⌊rnd i * 32⌋ < 32) ∧
    (∀ i, i < 24 → (randToken rnd).data[i]? =
      "ABCDEFGHJKLMNPQRSTUVWXYZ23456789".data[(⌊rnd i * 32⌋).toNat]?) ∧
    (∀ (env : Env) (req : Request) (now : Int) (s : Store),
      Reaches env req "createToken" → (handler env req rnd now s).1.status = 200 →
      (handler env req rnd now s).1.body = .okToken (randToken rnd)) ∧
    (∀ (env : Env) (req : Request) (now : Int) (s : Store) (guildId userId : String),
      Reaches env req "createToken" →
      textField (readBody req) "guildId" = .ok guildId →
      textField (readBody req) "userId" = .ok userId →
      guildId ≠ "" → userId ≠ "" → hasNul guildId = false → hasNul userId = false →
      (-9223372036854775808 ≤ now ∧ now ≤ 9223372036854775807) →
      (∀ r ∈ s.form_tokens, r.token ≠ randToken rnd) →
      handler env req rnd now s =
        (⟨200, .okToken (randToken rnd)⟩,
         { s with form_tokens :=
            s.form_tokens ++ [⟨randToken rnd, guildId, userId, false, now⟩] })) := by
  obtain ⟨hlen, hmem⟩ := foldl_pick rnd h (List.range 24) ""
  have hmem2 : ∀ c ∈ (randToken rnd).data, c ∈ chars.data := by
    intro c hc
    rcases hmem c hc with hx | hx
    · simp at hx
    · exact hx
  refine ⟨?_, hmem2, fun i => (pick_spec (rnd i) (h i).1 (h i).2).1, ?_, ?_, ?_⟩
  · show (randToken rnd).data.length = 24
    simpa [randToken] using hlen
  · intro i hi
    obtain ⟨⟨hnn, hlt⟩, _⟩ := pick_spec (rnd i) (h i).1 (h i).2
    have hidx : (⌊rnd i * 32⌋).toNat < chars.data.length := by
      rw [chars_length]; omega
    have hd : (randToken rnd).data =
        (List.range 24).map (fun i => chars.data.getD (⌊rnd i * 32⌋).toNat 'A') := by
      have := foldl_pick_data rnd h (List.range 24) ""
      simpa [randToken] using this
    rw [hd, List.getElem?_map, List.getElem?_range hi]
    show some (chars.data.getD (⌊rnd i * 32⌋).toNat 'A') = chars.data[(⌊rnd i * 32⌋).toNat]?
    rw [List.getD_eq_getElem _ _ hidx, List.getElem?_eq_getElem hidx]
  · intro env req now s hr hst
    rw [handler_reaches hr, dispatch_createToken hr.2.2] at hst ⊢
    rcases hx : createToken (readBody req) rnd now s with ⟨res | res, s1⟩
    · rw [hx] at hst
      simp [caught, json] at hst
    · rw [hx] at hst
      exact createToken_ok_token _ _ _ _ _ _ hx hst
  · intro env req now s guildId userId hr hg hu hg0 hu0 hg1 hu1 hnow hfresh
    have hany : (s.form_tokens.any fun r => decide (r.token = randToken rnd)) = false := by
      rw [List.any_eq_false]
      intro r hr
      simpa using hfresh r hr
    rw [handler_reaches hr, dispatch_createToken hr.2.2]
    simp [createToken, hg, hu, hg0, hu0, insertToken, bindText_ok hg1, bindText_ok hu1,
      bindText_ok (hasNul_of_mem_chars hmem2), bindBigInt_ok hnow, hany, caught, json]

theorem randToken_alphabet_witness :
    (randToken fun _ => 0).length = 24 ∧
      ∀ c ∈ (randToken fun _ => 0).data, c ∈ "ABCDEFGHJKLMNPQRSTUVWXYZ23456789".data :=
  ⟨(randToken_alphabet (fun _ => 0) (fun _ => by norm_num)).1,
   (randToken_alphabet (fun _ => 0) (fun _ => by norm_num)).2.1⟩

theorem startsWith_slice (auth key : String) :
    (startsWith auth "Bearer " = true ∧ slice auth 7 = key) ↔ auth = "Bearer " ++ key := by
  constructor
  · rintro ⟨h1, h2⟩
    have h1 : auth.data.take 7 = "Bearer ".data := by simpa [startsWith] using h1
    have h3 : auth.data.drop 7 = key.data := by rw [← h2]; rfl
    have : auth.data = "Bearer ".data ++ key.data := by
      rw [← h1, ← h3, List.take_append_drop]
    apply String.ext
    rw [this, String.data_append]
  · rintro rfl
    constructor
    · simp [startsWith, String.data_append]
    · apply String.ext
      simp [slice, String.data_append]

/-- C9: on a POST, `requireAuth` answers ok exactly when `ADMIN_API_KEY` is set to a non-empty
key and the `authorization` header is `Bearer ` followed by that key; when the key is not set
the response is 401 with the configuration message whatever the header, when the header is
anything else the response is 401 `Unauthorized`, and in both cases the store is returned as it
was. -/
theorem requireAuth_fails_closed (env : Env) (req : Request) (rnd : Nat → ℚ) (now : Int)
    (s : Store) (hm : req.method = "POST") :
    ((requireAuth env req).ok = true ↔
      ∃ key, env.ADMIN_API_KEY = some key ∧ key ≠ "" ∧
        req.authorization = some ("Bearer " ++ key)) ∧
    ((env.ADMIN_API_KEY = none ∨ env.ADMIN_API_KEY = some "") →
      handler env req rnd now s =
        (⟨401, .error "ADMIN_API_KEY não configurada na Vercel"⟩, s)) ∧
    (∀ key, env.ADMIN_API_KEY = some key → key ≠ "" →
      req.authorization ≠ some ("Bearer " ++ key) →
      handler env req rnd now s = (⟨401, .error "Unauthorized"⟩, s)) := by
  have key_case : ∀ key, env.ADMIN_API_KEY = some key → key ≠ "" →
      ((requireAuth env req).ok = true ↔ req.authorization = some ("Bearer " ++ key)) ∧
      (req.authorization ≠ some ("Bearer " ++ key) →
        requireAuth env req = ⟨false, some "Unauthorized"⟩) := by
    intro key hk hne
    have hiff : (if startsWith (req.authorization.getD "") "Bearer " = true
        then slice (req.authorization.getD "") 7 else "") = key ↔
        req.authorization = some ("Bearer " ++ key) := by
      by_cases hs : startsWith (req.authorization.getD "") "Bearer " = true
      · rw [if_pos hs]
        constructor
        · intro h2
          have := (startsWith_slice _ key).1 ⟨hs, h2⟩
          cases ha : req.authorization with
          | none =>
            rw [ha] at hs
            simp [startsWith] at hs
          | some a => rw [ha] at this; simpa using this
        · intro h2
          have : req.authorization.getD "" = "Bearer " ++ key := by rw [h2]; rfl
          exact ((startsWith_slice _ key).2 this).2
      · rw [if_neg hs]
        constructor
        · intro h2; exact absurd h2.symm hne
        · intro h2
          have : req.authorization.getD "" = "Bearer " ++ key := by rw [h2]; rfl
          exact absurd ((startsWith_slice _ key).2 this).1 hs
    constructor
    · by_cases hg : (if startsWith (req.authorization.getD "") "Bearer " = true
          then slice (req.authorization.getD "") 7 else "") = key
      · have : requireAuth env req = ⟨true, none⟩ := by
          simp only [requireAuth, hk, hne, if_false]
          rw [if_neg (not_not.mpr hg)]
        rw [this]
        exact ⟨fun _ => hiff.1 hg, fun _ => rfl⟩
      · have : requireAuth env req = ⟨false, some "Unauthorized"⟩ := by
          simp only [requireAuth, hk, hne, if_false]
          rw [if_pos hg]
        rw [this]
        exact ⟨fun h => by simp at h, fun h => absurd (hiff.2 h) hg⟩
    · intro hno
      have : ¬ ((if startsWith (req.authorization.getD "") "Bearer " = true
        then slice (req.authorization.getD "") 7 else "") = key) := fun h => hno (hiff.1 h)
      simp only [requireAuth, hk, hne, if_false]
      rw [if_pos this]
  refine ⟨?_, ?_, ?_⟩
  · constructor
    · intro hok
      cases hk : env.ADMIN_API_KEY with
      | none => simp [requireAuth, hk] at hok
      | some key =>
        by_cases hne : key = ""
        · simp [requireAuth, hk, hne] at hok
        · exact ⟨key, rfl, hne, ((key_case key hk hne).1).1 hok⟩
    · rintro ⟨key, hk, hne, ha⟩
      exact ((key_case key hk hne).1).2 ha
  · rintro (hk | hk) <;> simp [handler, hm, requireAuth, hk, json]
  · intro key hk hne hno
    simp [handler, hm, (key_case key hk hne).2 hno, json]

theorem requireAuth_fails_closed_witness :
    handler ⟨some "k", none⟩ ⟨"POST", none, none⟩ (fun _ => 0) 0 ⟨[], [], 0⟩ =
      (⟨401, .error "Unauthorized"⟩, ⟨[], [], 0⟩) :=
  (requireAuth_fails_closed ⟨some "k", none⟩ ⟨"POST", none, none⟩ (fun _ => 0) 0 ⟨[], [], 0⟩
    rfl).2.2 "k" rfl (by decide) (by decide)

/-! ## Validation in `submit` and `decide` -/

theorem handler_submit {env : Env} {req : Request} (hr : Reaches env req "submit")
    (rnd : Nat → ℚ) (now : Int) (s : Store) :
    handler env req rnd now s = caught (submit (readBody req) now s) := by
  rw [handler_reaches hr, dispatch_submit hr.2.2]

theorem handler_decide {env : Env} {req : Request} (hr : Reaches env req "decide")
    (rnd : Nat → ℚ) (now : Int) (s : Store) :
    handler env req rnd now s = caught (decideAction (readBody req) s) := by
  rw [handler_reaches hr, dispatch_decide hr.2.2]

theorem submit_invalid {body : JsVal} {f : SubmitFields} (now : Int) (s : Store)
    (hf : submitFields body = .ok f)
    (hbad : f.token = "" ∨ f.nick = "" ∨ f.motivo = "" ∨ f.linkBonde = "" ∨
      f.idade.isFinite = false) :
    submit body now s = (.ok ⟨400, .error "Campos inválidos"⟩, s) := by
  have hc : f.token = "" ∨ f.nick = "" ∨ ¬ f.idade.isFinite = true ∨ f.motivo = "" ∨
      f.linkBonde = "" := by
    rcases hbad with h | h | h | h | h
    · exact Or.inl h
    · exact Or.inr (Or.inl h)
    · exact Or.inr (Or.inr (Or.inr (Or.inl h)))
    · exact Or.inr (Or.inr (Or.inr (Or.inr h)))
    · exact Or.inr (Or.inr (Or.inl (by simp [h])))
  simp only [submit, hf]
  rw [if_pos hc]
  rfl

theorem submit_thrown {body : JsVal} {e : Thrown} (now : Int) (s : Store)
    (hf : submitFields body = .error e) : submit body now s = (.error e, s) := by
  simp only [submit, hf]

/-- The checks of line 98 pass: the branch taken is the one of line 102. -/
theorem submit_valid {body : JsVal} {f : SubmitFields} (now : Int) (s : Store)
    (hf : submitFields body = .ok f)
    (hvalid : f.token ≠ "" ∧ f.nick ≠ "" ∧ f.motivo ≠ "" ∧ f.linkBonde ≠ "" ∧
      f.idade.isFinite = true) :
    submit body now s =
      match selectToken s f.token with
      | .error e => (.error e, s)
      | .ok [] => (.ok (json 404 (.error "Token inválido")), s)
      | .ok (t :: _) =>
        if t.used then (.ok (json 410 (.error "Token já usado")), s)
        else
          match markTokenUsed s f.token with
          | .error e => (.error e, s)
          | .ok s1 =>
            match insertSubmission s1 (rowText t.guildId) (rowText t.userId) f.discordTag
              f.nick f.idade f.motivo f.linkBonde now with
            | (.error e, s2) => (.error e, s2)
            | (.ok id, s2) => (.ok (json 200 (.okId id)), s2) := by
  obtain ⟨h1, h2, h3, h4, h5⟩ := hvalid
  have hc : ¬ (f.token = "" ∨ f.nick = "" ∨ ¬ f.idade.isFinite = true ∨ f.motivo = "" ∨
      f.linkBonde = "") := by
    simp [h1, h2, h3, h4, h5]
  simp only [submit, hf]
  rw [if_neg hc]

/-- C4, as stated, fails: in this `submit` request the token is missing, and `nick` is an
object with a property `toString` of its own, which `String` cannot convert: line 93 throws,
and the answer is 500, not 400. -/
theorem submit_coercion_throws_before_validation :
    handler ⟨some "k", none⟩
      ⟨"POST", some "Bearer k", some (.obj [("action", .str "submit"),
        ("nick", .obj [("toString", .num (.fin 1))]), ("idade", .num (.fin 21)),
        ("motivo", .str "x"), ("linkBonde", .str "http://x")])⟩
      (fun _ => 0) 7 ⟨[⟨"T", "g1", "u1", false, 1⟩], [], 0⟩ =
    (⟨500, .thrown .typeError⟩, ⟨[⟨"T", "g1", "u1", false, 1⟩], [], 0⟩) := by
  decide

/-- C4, amended: take an authorised POST with action `submit`.  When the coercions of lines
91-96 return, with fields `f`, and the trimmed token, nick, motivo or linkBonde is empty (a
missing field coerces to the empty string) or `Number(idade)` is not finite, the handler
answers 400 `Campos inválidos`; when one of the coercions throws, the handler answers 500
with what was thrown.  In both cases the store is returned as it was: no row is inserted and
no token row is touched. -/
theorem submit_rejects_invalid_fields (env : Env) (req : Request) (rnd : Nat → ℚ) (now : Int)
    (s : Store) (hr : Reaches env req "submit") :
    (∀ f, submitFields (readBody req) = .ok f →
      (f.token = "" ∨ f.nick = "" ∨ f.motivo = "" ∨ f.linkBonde = "" ∨
        f.idade.isFinite = false) →
      handler env req rnd now s = (⟨400, .error "Campos inválidos"⟩, s)) ∧
    (∀ e, submitFields (readBody req) = .error e →
      handler env req rnd now s = (⟨500, .thrown e⟩, s)) := by
  constructor
  · intro f hf hbad
    rw [handler_submit hr, submit_invalid now s hf hbad]
    rfl
  · intro e hf
    rw [handler_submit hr, submit_thrown now s hf]
    rfl

theorem submit_rejects_invalid_fields_witness :
    handler ⟨some "k", none⟩
      ⟨"POST", some "Bearer k", some (.obj [("action", .str "submit"), ("token", .str "T"),
        ("nick", .str "Ana"), ("idade", .str "abc"), ("motivo", .str "x"),
        ("linkBonde", .str "http://x")])⟩
      (fun _ => 0) 7 ⟨[⟨"T", "g1", "u1", false, 1⟩], [], 0⟩ =
    (⟨400, .error "Campos inválidos"⟩, ⟨[⟨"T", "g1", "u1", false, 1⟩], [], 0⟩) :=
  (submit_rejects_invalid_fields _ _ _ _ _ (by decide)).1
    ⟨"T", none, "Ana", .nan, "x", "http://x"⟩ (by decide) (by decide)

/-- C5, as stated, fails: the fields of this `submit` request pass validation and no row
carries its token, which contains U+0000; the database refuses the query of line 102 and the
answer is 500, not 404. -/
theorem submit_unknown_token_refused :
    handler ⟨some "k", none⟩
      ⟨"POST", some "Bearer k", some (.obj [("action", .str "submit"),
        ("token", .str "Z\x00"), ("nick", .str "Ana"), ("idade", .num (.fin 21)),
        ("motivo", .str "x"), ("linkBonde", .str "http://x")])⟩
      (fun _ => 0) 7 ⟨[⟨"T", "g1", "u1", false, 1⟩], [], 0⟩ =
    (⟨500, .thrown .invalidText⟩, ⟨[⟨"T", "g1", "u1", false, 1⟩], [], 0⟩) := by
  decide

/-- C5, amended: take an authorised POST with action `submit` whose fields `f`, as lines 91-96
coerce them, pass the validation of line 98, and a store in which no row of `form_tokens`
carries the trimmed token.  If the token is free of U+0000 the handler answers 404
`Token inválido`; if it contains U+0000 the database refuses the query and the handler
answers 500.  In both cases the store is returned as it was. -/
theorem submit_unknown_token (env : Env) (req : Request) (rnd : Nat → ℚ) (now : Int)
    (s : Store) (f : SubmitFields) (hr : Reaches env req "submit")
    (hf : submitFields (readBody req) = .ok f)
    (hvalid : f.token ≠ "" ∧ f.nick ≠ "" ∧ f.motivo ≠ "" ∧ f.linkBonde ≠ "" ∧
      f.idade.isFinite = true)
    (hno : ∀ r ∈ s.form_tokens, r.token ≠ f.token) :
    (hasNul f.token = false →
      handler env req rnd now s = (⟨404, .error "Token inválido"⟩, s)) ∧
    (hasNul f.token = true →
      handler env req rnd now s = (⟨500, .thrown .invalidText⟩, s)) := by
  rw [handler_submit hr, submit_valid now s hf hvalid]
  constructor
  · intro hn
    have hsel : selectToken s f.token = .ok [] := by
      simp only [selectToken, bindText_ok hn]
      congr 1
      rw [List.filter_eq_nil_iff]
      intro r hr
      simpa using hno r hr
    rw [hsel]
    rfl
  · intro hn
    have hsel : selectToken s f.token = .error .invalidText := by
      simp only [selectToken, bindText_error hn]
    rw [hsel]
    rfl

theorem submit_unknown_token_witness :
    handler ⟨some "k", none⟩
      ⟨"POST", some "Bearer k", some (.obj [("action", .str "submit"), ("token", .str " Z "),
        ("nick", .str "Ana"), ("idade", .num (.fin 21)), ("motivo", .str "x"),
        ("linkBonde", .str "http://x")])⟩
      (fun _ => 0) 7 ⟨[⟨"T", "g1", "u1", false, 1⟩], [], 0⟩ =
    (⟨404, .error "Token inválido"⟩, ⟨[⟨"T", "g1", "u1", false, 1⟩], [], 0⟩) :=
  (submit_unknown_token _ _ _ _ _ ⟨"Z", none, "Ana", .fin 21, "x", "http://x"⟩
    (by decide) (by decide) (by decide) (by decide)).1 (by decide)

theorem updateStatus_ok {s s1 : Store} {decision : String} {id : JsNum}
    (h : updateStatus s decision id = .ok s1) :
    ∃ i, bindInt id = .ok i ∧ hasNul decision = false ∧ s1 = ⟨s.form_tokens,
      s.form_submissions.map (fun r => if r.id = i then { r with status := decision } else r),
      s.idSeq⟩ := by
  unfold updateStatus at h
  cases hd : bindText decision with
  | error e => rw [hd] at h; cases hb : bindInt id <;> rw [hb] at h <;> cases h
  | ok d =>
    obtain ⟨rfl, hn⟩ := bindText_eq_ok hd
    cases hb : bindInt id with
    | error e => rw [hd, hb] at h; cases h
    | ok i =>
      rw [hd, hb] at h
      injection h with h
      exact ⟨i, rfl, hn, h.symm⟩

theorem updateStatus_eq {s : Store} {decision : String} {id : JsNum} {i : Int}
    (hd : decision = "approved" ∨ decision = "rejected") (hi : bindInt id = .ok i) :
    updateStatus s decision id = .ok ⟨s.form_tokens,
      s.form_submissions.map (fun r => if r.id = i then { r with status := decision } else r),
      s.idSeq⟩ := by
  have hn : hasNul decision = false := by
    rcases hd with rfl | rfl <;> decide
  simp only [updateStatus, bindText_ok hn, hi]

/-- C6, as stated, fails: the decision of this `decide` request is `maybe`, and its id is an
object with a property `toString` of its own, which `Number` cannot convert: line 126 throws,
and the answer is 500, not 400. -/
theorem decide_coercion_throws_before_validation :
    handler ⟨some "k", none⟩
      ⟨"POST", some "Bearer k", some (.obj [("action", .str "decide"),
        ("id", .obj [("toString", .num (.fin 1))]), ("decision", .str "maybe")])⟩
      (fun _ => 0) 7
      ⟨[], [⟨1, "g1", "u1", none, "Ana", 21, "x", "http://x", "pending", 5, false⟩], 1⟩ =
    (⟨500, .thrown .typeError⟩,
      ⟨[], [⟨1, "g1", "u1", none, "Ana", 21, "x", "http://x", "pending", 5, false⟩], 1⟩) := by
  decide

/-- C6, amended: take an authorised POST with action `decide`.  When the coercions of lines
126-127 return, `Number(id)` being `id` and the trimmed `String(decision)` being `decision`,
and `decision` is neither `approved` nor `rejected` (a missing decision is the empty string)
or `id` is not finite, the handler answers 400 `id/decision inválidos`; when one of the two
coercions throws, the handler answers 500 with what was thrown.  In both cases the store is
returned as it was.  And whatever the request carries, it leaves the tokens alone and every
submission either as it was or changed in its status only, to `approved` or `rejected`. -/
theorem decide_validates (env : Env) (req : Request) (rnd : Nat → ℚ) (now : Int) (s : Store)
    (hr : Reaches env req "decide") :
    (∀ id decision, toNum (field (readBody req) "id") = .ok id →
      textField (readBody req) "decision" = .ok decision →
      (id.isFinite = false ∨ (decision ≠ "approved" ∧ decision ≠ "rejected")) →
      handler env req rnd now s = (⟨400, .error "id/decision inválidos"⟩, s)) ∧
    (∀ e, (toNum (field (readBody req) "id") = .error e ∨
        ((∃ id, toNum (field (readBody req) "id") = .ok id) ∧
          textField (readBody req) "decision" = .error e)) →
      handler env req rnd now s = (⟨500, .thrown e⟩, s)) ∧
    (handler env req rnd now s).2.form_tokens = s.form_tokens ∧
    List.Forall₂
      (fun r r' => r' = r ∨
        (r' = { r with status := r'.status } ∧
          (r'.status = "approved" ∨ r'.status = "rejected")))
      s.form_submissions (handler env req rnd now s).2.form_submissions := by
  rw [handler_decide hr]
  refine ⟨?_, ?_, ?_⟩
  · intro id decision hid hd hbad
    have hc : ¬ id.isFinite = true ∨ ¬ (decision = "approved" ∨ decision = "rejected") := by
      rcases hbad with h | ⟨h1, h2⟩
      · exact Or.inl (by simp [h])
      · exact Or.inr (fun h => h.elim h1 h2)
    simp only [decideAction, hid, hd]
    rw [if_pos hc]
    rfl
  · rintro e (he | ⟨⟨id, hid⟩, he⟩)
    · simp only [decideAction, he]
      cases textField (readBody req) "decision" <;> rfl
    · simp only [decideAction, hid, he]
      rfl
  · have same : List.Forall₂
        (fun r r' : Submission => r' = r ∨
          (r' = { r with status := r'.status } ∧
            (r'.status = "approved" ∨ r'.status = "rejected")))
        s.form_submissions s.form_submissions :=
      List.forall₂_same.2 (fun r _ => Or.inl rfl)
    unfold decideAction
    split
    · rename_i id decision _ _
      split
      · exact ⟨rfl, same⟩
      · rename_i hgood
        have hdec : decision = "approved" ∨ decision = "rejected" := by
          by_contra hcon
          exact hgood (Or.inr hcon)
        cases hu : updateStatus s decision id with
        | error e => exact ⟨rfl, same⟩
        | ok s1 =>
          obtain ⟨i, _, _, rfl⟩ := updateStatus_ok hu
          refine ⟨rfl, ?_⟩
          simp only [caught]
          rw [List.forall₂_map_right_iff]
          apply List.forall₂_same.2
          intro r _
          by_cases hri : r.id = i
          · rw [if_pos hri]
            exact Or.inr ⟨rfl, hdec⟩
          · rw [if_neg hri]
            exact Or.inl rfl
    · exact ⟨rfl, same⟩
    · exact ⟨rfl, same⟩

theorem decide_validates_witness :
    handler ⟨some "k", none⟩
      ⟨"POST", some "Bearer k", some (.obj [("action", .str "decide"), ("id", .num (.fin 1)),
        ("decision", .str "maybe")])⟩
      (fun _ => 0) 7
      ⟨[], [⟨1, "g1", "u1", none, "Ana", 21, "x", "http://x", "pending", 5, false⟩], 1⟩ =
    (⟨400, .error "id/decision inválidos"⟩,
      ⟨[], [⟨1, "g1", "u1", none, "Ana", 21, "x", "http://x", "pending", 5, false⟩], 1⟩) :=
  (decide_validates _ _ _ _ _ (by decide)).1 (.fin 1) "maybe" (by decide) (by decide)
    (Or.inr (by decide))

/-! ## The two queries: filter, order by id, limit -/

theorem limit_sorted_filter {α : Type} (r : α → α → Prop) [DecidableRel r] [IsTotal α r]
    [IsTrans α r] (p : α → Bool) (l : List α) (n : Nat) :
    (((l.filter p).insertionSort r).take n).length ≤ n ∧
    (∀ x ∈ ((l.filter p).insertionSort r).take n, x ∈ l ∧ p x = true) ∧
    (((l.filter p).insertionSort r).take n).Pairwise r ∧
    (∀ y ∈ l, p y = true → y ∉ ((l.filter p).insertionSort r).take n →
      (((l.filter p).insertionSort r).take n).length = n ∧
      ∀ x ∈ ((l.filter p).insertionSort r).take n, r x y) := by
  have hperm := List.perm_insertionSort r (l.filter p)
  have hsorted : ((l.filter p).insertionSort r).Pairwise r := List.sorted_insertionSort r _
  refine ⟨List.length_take_le _ _, ?_, ?_, ?_⟩
  · intro x hx
    have hx1 := hperm.subset (List.mem_of_mem_take hx)
    exact List.mem_filter.1 hx1
  · exact hsorted.sublist (List.take_sublist _ _)
  · intro y hy hpy hnot
    have hy1 : y ∈ (l.filter p).insertionSort r :=
      hperm.symm.subset (List.mem_filter.2 ⟨hy, hpy⟩)
    rw [← List.take_append_drop n ((l.filter p).insertionSort r)] at hy1 hsorted
    have hyd : y ∈ ((l.filter p).insertionSort r).drop n := by
      rcases List.mem_append.1 hy1 with h | h
      · exact absurd h hnot
      · exact h
    constructor
    · rw [List.length_take]
      by_contra hlt
      have hle : ((l.filter p).insertionSort r).length ≤ n := by omega
      rw [List.drop_eq_nil_of_le hle] at hyd
      cases hyd
    · intro x hx
      exact (List.pairwise_append.1 hsorted).2.2 x hx y hyd

theorem strict_of_nodup_ids (l items : List Submission)
    (hpk : (l.map Submission.id).Nodup) (hsub : ∀ x ∈ items, x ∈ l) (hnd : items.Nodup) :
    items.Pairwise (fun a b => a.id ≠ b.id) := by
  refine hnd.imp_of_mem ?_
  intro a b ha hb hab hid
  exact hab (List.inj_on_of_nodup_map hpk (hsub a ha) (hsub b hb) hid)

theorem nodup_of_nodup_ids {l : List Submission} (hpk : (l.map Submission.id).Nodup) :
    l.Nodup := List.Nodup.of_map _ hpk

theorem handler_pollForLogs {env : Env} {req : Request} (hr : Reaches env req "pollForLogs")
    (rnd : Nat → ℚ) (now : Int) (s : Store) :
    handler env req rnd now s = caught (pollForLogs (readBody req) s) := by
  rw [handler_reaches hr, dispatch_pollForLogs hr.2.2]

theorem handler_list {env : Env} {req : Request} (hr : Reaches env req "list")
    (rnd : Nat → ℚ) (now : Int) (s : Store) :
    handler env req rnd now s = caught (list (readBody req) s) := by
  rw [handler_reaches hr, dispatch_list hr.2.2]

/-- C7, as stated, fails: the trimmed `guildId` of this `pollForLogs` request is not empty
and contains U+0000; the database refuses the query of lines 137-142 and the answer is 500,
not 200 with items. -/
theorem pollForLogs_refused :
    handler ⟨some "k", none⟩
      ⟨"POST", some "Bearer k", some (.obj [("action", .str "pollForLogs"),
        ("guildId", .str "g1\x00")])⟩
      (fun _ => 0) 7
      ⟨[], [⟨1, "g1", "u1", none, "Ana", 21, "x", "http://x", "pending", 5, false⟩], 1⟩ =
    (⟨500, .thrown .invalidText⟩,
      ⟨[], [⟨1, "g1", "u1", none, "Ana", 21, "x", "http://x", "pending", 5, false⟩], 1⟩) := by
  decide

/-- C7, amended: take an authorised POST with action `pollForLogs` whose trimmed
`String(guildId)` is `guildId`, not empty, and a store whose ids are distinct (`id` is the
primary key).  If `guildId` is free of U+0000, the handler answers 200 with at most 10 items,
all rows of `form_submissions` with that guildId, status `pending` and logged false, in
strictly ascending id order; a matching row is left out only when 10 items are returned, and
then its id is larger than every returned id.  If `guildId` contains U+0000 the database
refuses the query and the handler answers 500.  In both cases the store is returned as it
was. -/
theorem pollForLogs_oldest_ten (env : Env) (req : Request) (rnd : Nat → ℚ) (now : Int)
    (s : Store) (guildId : String) (hr : Reaches env req "pollForLogs")
    (hg : textField (readBody req) "guildId" = .ok guildId) (hne : guildId ≠ "")
    (hpk : (s.form_submissions.map Submission.id).Nodup) :
    (hasNul guildId = false →
      ∃ items, handler env req rnd now s = (⟨200, .okItems items⟩, s) ∧
        items.length ≤ 10 ∧
        (∀ r ∈ items, r ∈ s.form_submissions ∧ r.guildId = guildId ∧ r.status = "pending" ∧
          r.logged = false) ∧
        items.Pairwise (fun a b => a.id < b.id) ∧
        (∀ r ∈ s.form_submissions, r.guildId = guildId → r.status = "pending" →
          r.logged = false → r ∉ items → items.length = 10 ∧ ∀ x ∈ items, x.id < r.id)) ∧
    (hasNul guildId = true →
      handler env req rnd now s = (⟨500, .thrown .invalidText⟩, s)) := by
  constructor
  swap
  · intro hn
    rw [handler_pollForLogs hr]
    simp [pollForLogs, hg, hne, selectPending, bindText_error hn, caught, json]
  intro hn
  haveI : IsTotal Submission (fun a b => a.id ≤ b.id) := ⟨fun a b => le_total a.id b.id⟩
  haveI : IsTrans Submission (fun a b => a.id ≤ b.id) := ⟨fun _ _ _ h1 h2 => le_trans h1 h2⟩
  obtain ⟨h1, h2, h3, h4⟩ := limit_sorted_filter (fun a b : Submission => a.id ≤ b.id)
    (fun r => decide (r.guildId = guildId ∧ r.status = "pending" ∧ r.logged = false))
    s.form_submissions 10
  have hsel : selectPending s guildId = .ok (((s.form_submissions.filter
      (fun r => decide (r.guildId = guildId ∧ r.status = "pending" ∧ r.logged = false))
      ).insertionSort (fun a b => a.id ≤ b.id)).take 10) := by
    simp only [selectPending, bindText_ok hn]
  refine ⟨_, ?_, h1, ?_, ?_, ?_⟩
  · rw [handler_pollForLogs hr]
    simp only [pollForLogs, hg, if_neg hne, hsel, caught, json]
  · intro r hr
    obtain ⟨hm, hp⟩ := h2 r hr
    exact ⟨hm, by simpa using hp⟩
  · have hnd := (((nodup_of_nodup_ids hpk).filter
        (fun r => decide (r.guildId = guildId ∧ r.status = "pending" ∧ r.logged = false))).perm
        (List.perm_insertionSort (fun a b : Submission => a.id ≤ b.id) _).symm).sublist
        (List.take_sublist 10 _)
    have hne := strict_of_nodup_ids s.form_submissions _ hpk (fun x hx => (h2 x hx).1) hnd
    exact (h3.and hne).imp (fun h => lt_of_le_of_ne h.1 h.2)
  · intro r hr hg1 hs1 hl1 hnot
    obtain ⟨hlen, hle⟩ := h4 r hr (by simp [hg1, hs1, hl1]) hnot
    refine ⟨hlen, fun x hx => lt_of_le_of_ne (hle x hx) ?_⟩
    intro hid
    have : x = r := List.inj_on_of_nodup_map hpk (h2 x hx).1 hr hid
    exact hnot (this ▸ hx)

theorem pollForLogs_oldest_ten_witness :
    ∃ items,
      handler ⟨some "k", none⟩
        ⟨"POST", some "Bearer k", some (.obj [("action", .str "pollForLogs"),
          ("guildId", .str " g1 ")])⟩
        (fun _ => 0) 7
        ⟨[], [⟨2, "g1", "u2", none, "Bia", 30, "y", "http://y", "pending", 6, false⟩,
              ⟨1, "g1", "u1", none, "Ana", 21, "x", "http://x", "pending", 5, false⟩], 2⟩ =
        (⟨200, .okItems items⟩,
          ⟨[], [⟨2, "g1", "u2", none, "Bia", 30, "y", "http://y", "pending", 6, false⟩,
              ⟨1, "g1", "u1", none, "Ana", 21, "x", "http://x", "pending", 5, false⟩], 2⟩) ∧
      items.length ≤ 10 ∧ items.Pairwise (fun a b => a.id < b.id) := by
  obtain ⟨items, h1, h2, _, h4, _⟩ := (pollForLogs_oldest_ten ⟨some "k", none⟩
    ⟨"POST", some "Bearer k", some (.obj [("action", .str "pollForLogs"),
      ("guildId", .str " g1 ")])⟩
    (fun _ => 0) 7
    ⟨[], [⟨2, "g1", "u2", none, "Bia", 30, "y", "http://y", "pending", 6, false⟩,
          ⟨1, "g1", "u1", none, "Ana", 21, "x", "http://x", "pending", 5, false⟩], 2⟩
    "g1" (by decide) (by decide) (by decide) (by decide)).1 (by decide)
  exact ⟨items, h1, h2, h4⟩

/-- C8, as stated, fails on two `list` requests: one whose status contains U+0000, for which
the database refuses the query of line 121, and one whose status is an object with a property
`toString` of its own, for which line 120 throws; both are answered 500, not 200. -/
theorem list_refused_or_thrown :
    handler ⟨some "k", none⟩
      ⟨"POST", some "Bearer k", some (.obj [("action", .str "list"),
        ("status", .str "\x00")])⟩
      (fun _ => 0) 7
      ⟨[], [⟨1, "g1", "u1", none, "Ana", 21, "x", "http://x", "pending", 5, false⟩], 1⟩ =
    (⟨500, .thrown .invalidText⟩,
      ⟨[], [⟨1, "g1", "u1", none, "Ana", 21, "x", "http://x", "pending", 5, false⟩], 1⟩) ∧
    handler ⟨some "k", none⟩
      ⟨"POST", some "Bearer k", some (.obj [("action", .str "list"),
        ("status", .obj [("toString", .num (.fin 1))])])⟩
      (fun _ => 0) 7
      ⟨[], [⟨1, "g1", "u1", none, "Ana", 21, "x", "http://x", "pending", 5, false⟩], 1⟩ =
    (⟨500, .thrown .typeError⟩,
      ⟨[], [⟨1, "g1", "u1", none, "Ana", 21, "x", "http://x", "pending", 5, false⟩], 1⟩) := by
  decide

/-- C8, amended: take an authorised POST with action `list` and a store whose ids are
distinct (`id` is the primary key).  When `String(body.status || "pending")` returns a text
free of U+0000, the requested status (it is `pending` when the status is missing or empty),
the handler answers 200 with at most 100 items, all rows of `form_submissions` with that
status, in strictly descending id order; a matching row is left out only when 100 items are
returned, and then its id is smaller than every returned id.  When that text contains U+0000
the database refuses the query, and when the coercion throws nothing is queried: the handler
answers 500.  In all cases the store is returned as it was. -/
theorem list_newest_hundred (env : Env) (req : Request) (rnd : Nat → ℚ) (now : Int)
    (s : Store) (hr : Reaches env req "list")
    (hpk : (s.form_submissions.map Submission.id).Nodup) :
    (∀ status, toStr (jsOr (field (readBody req) "status") (.str "pending")) = .ok status →
      (truthy (field (readBody req) "status") = false → status = "pending") ∧
      (hasNul status = false →
        ∃ items, handler env req rnd now s = (⟨200, .okItems items⟩, s) ∧
          items.length ≤ 100 ∧
          (∀ r ∈ items, r ∈ s.form_submissions ∧ r.status = status) ∧
          items.Pairwise (fun a b => b.id < a.id) ∧
          (∀ r ∈ s.form_submissions, r.status = status → r ∉ items →
            items.length = 100 ∧ ∀ x ∈ items, r.id < x.id)) ∧
      (hasNul status = true →
        handler env req rnd now s = (⟨500, .thrown .invalidText⟩, s))) ∧
    (∀ e, toStr (jsOr (field (readBody req) "status") (.str "pending")) = .error e →
      handler env req rnd now s = (⟨500, .thrown e⟩, s)) := by
  constructor
  swap
  · intro e he
    rw [handler_list hr]
    simp only [list, he, caught, json]
  intro status hst
  refine ⟨?_, ?_, ?_⟩
  · intro hf
    simp only [jsOr, hf] at hst
    simpa [toStr] using hst.symm
  swap
  · intro hn
    rw [handler_list hr]
    simp only [list, hst, selectByStatus, bindText_error hn, caught, json]
  intro hn
  haveI : IsTotal Submission (fun a b => b.id ≤ a.id) := ⟨fun a b => le_total b.id a.id⟩
  haveI : IsTrans Submission (fun a b => b.id ≤ a.id) := ⟨fun _ _ _ h1 h2 => le_trans h2 h1⟩
  obtain ⟨h1, h2, h3, h4⟩ := limit_sorted_filter (fun a b : Submission => b.id ≤ a.id)
    (fun r => decide (r.status = status)) s.form_submissions 100
  have hsel : selectByStatus s status = .ok (((s.form_submissions.filter
      (fun r => decide (r.status = status))).insertionSort
      (fun a b => b.id ≤ a.id)).take 100) := by
    simp only [selectByStatus, bindText_ok hn]
  refine ⟨_, ?_, h1, ?_, ?_, ?_⟩
  · rw [handler_list hr]
    simp only [list, hst, hsel, caught, json]
  · intro r hr
    obtain ⟨hm, hp⟩ := h2 r hr
    exact ⟨hm, by simpa using hp⟩
  · have hnd := (((nodup_of_nodup_ids hpk).filter
        (fun r => decide (r.status = status))).perm
        (List.perm_insertionSort (fun a b : Submission => b.id ≤ a.id) _).symm).sublist
        (List.take_sublist 100 _)
    have hne := strict_of_nodup_ids s.form_submissions _ hpk (fun x hx => (h2 x hx).1) hnd
    exact (h3.and hne).imp (fun h => lt_of_le_of_ne h.1 (Ne.symm h.2))
  · intro r hr hs1 hnot
    obtain ⟨hlen, hle⟩ := h4 r hr (by simp [hs1]) hnot
    refine ⟨hlen, fun x hx => lt_of_le_of_ne (hle x hx) ?_⟩
    intro hid
    have : x = r := List.inj_on_of_nodup_map hpk (h2 x hx).1 hr hid.symm
    exact hnot (this ▸ hx)

theorem list_newest_hundred_witness :
    ∃ items,
      handler ⟨some "k", none⟩
        ⟨"POST", some "Bearer k", some (.obj [("action", .str "list")])⟩
        (fun _ => 0) 7
        ⟨[], [⟨1, "g1", "u1", none, "Ana", 21, "x", "http://x", "pending", 5, false⟩,
              ⟨2, "g1", "u2", none, "Bia", 30, "y", "http://y", "pending", 6, false⟩], 2⟩ =
        (⟨200, .okItems items⟩,
          ⟨[], [⟨1, "g1", "u1", none, "Ana", 21, "x", "http://x", "pending", 5, false⟩,
              ⟨2, "g1", "u2", none, "Bia", 30, "y", "http://y", "pending", 6, false⟩], 2⟩) ∧
      items.length ≤ 100 ∧ items.Pairwise (fun a b => b.id < a.id) := by
  obtain ⟨items, h1, h2, _, h4, _⟩ := ((list_newest_hundred ⟨some "k", none⟩
    ⟨"POST", some "Bearer k", some (.obj [("action", .str "list")])⟩
    (fun _ => 0) 7
    ⟨[], [⟨1, "g1", "u1", none, "Ana", 21, "x", "http://x", "pending", 5, false⟩,
          ⟨2, "g1", "u2", none, "Bia", 30, "y", "http://y", "pending", 6, false⟩], 2⟩
    (by decide) (by decide)).1 "pending" (by decide)).2.1 (by decide)
  exact ⟨items, h1, h2, h4⟩

/-! ## What one request does to the store -/

theorem caught_snd (x : Except Thrown Response × Store) : (caught x).2 = x.2 := by
  rcases x with ⟨r | r, s⟩ <;> rfl

theorem list_snd (body : JsVal) (s : Store) : (list body s).2 = s := by
  unfold list
  split
  · rfl
  · split <;> rfl

theorem pollForLogs_snd (body : JsVal) (s : Store) : (pollForLogs body s).2 = s := by
  unfold pollForLogs
  split
  · rfl
  · split
    · rfl
    · split <;> rfl

/-- The store after a request: untouched, or what one of the four writing actions left. -/
theorem handler_snd_cases (env : Env) (req : Request) (rnd : Nat → ℚ) (now : Int)
    (s : Store) :
    (handler env req rnd now s).2 = s ∨
    (Reaches env req "createToken" ∧
      (handler env req rnd now s).2 = (createToken (readBody req) rnd now s).2) ∨
    (Reaches env req "submit" ∧
      (handler env req rnd now s).2 = (submit (readBody req) now s).2) ∨
    (Reaches env req "decide" ∧
      (handler env req rnd now s).2 = (decideAction (readBody req) s).2) ∨
    (Reaches env req "markLogged" ∧
      (handler env req rnd now s).2 = (markLogged (readBody req) s).2) := by
  by_cases hm : req.method = "POST"
  swap
  · left
    unfold handler
    by_cases ho : req.method = "OPTIONS"
    · rw [if_pos ho]
    · rw [if_neg ho, if_pos hm]
  by_cases ha : (requireAuth env req).ok = true
  swap
  · left
    simp [handler, hm, ha]
  have hh : handler env req rnd now s = caught (dispatch (readBody req) rnd now s) := by
    simp [handler, hm, ha, ensureSchema]
  rw [hh, caught_snd]
  by_cases h1 : strictEq (field (readBody req) "action") "createToken" = true
  · right; left
    exact ⟨⟨hm, ha, h1⟩, by rw [dispatch_createToken h1]⟩
  by_cases h2 : strictEq (field (readBody req) "action") "submit" = true
  · right; right; left
    exact ⟨⟨hm, ha, h2⟩, by rw [dispatch_submit h2]⟩
  by_cases h3 : strictEq (field (readBody req) "action") "list" = true
  · left
    rw [dispatch_list h3, list_snd]
  by_cases h4 : strictEq (field (readBody req) "action") "decide" = true
  · right; right; right; left
    exact ⟨⟨hm, ha, h4⟩, by rw [dispatch_decide h4]⟩
  by_cases h5 : strictEq (field (readBody req) "action") "pollForLogs" = true
  · left
    rw [dispatch_pollForLogs h5, pollForLogs_snd]
  by_cases h6 : strictEq (field (readBody req) "action") "markLogged" = true
  · right; right; right; right
    exact ⟨⟨hm, ha, h6⟩, by rw [dispatch_markLogged h6]⟩
  left
  unfold dispatch
  split
  · rfl
  · simp [h1, h2, h3, h4, h5, h6]

theorem insertToken_ok {s s1 : Store} {token guildId userId : String} {createdAt : Int}
    (h : insertToken s token guildId userId createdAt = .ok s1) :
    (∀ r ∈ s.form_tokens, r.token ≠ token) ∧
      s1 = ⟨s.form_tokens ++ [⟨token, guildId, userId, false, createdAt⟩],
        s.form_submissions, s.idSeq⟩ := by
  unfold insertToken at h
  split at h
  · rename_i tok g u ts ht hg hu hat
    obtain ⟨rfl, _⟩ := bindText_eq_ok ht
    obtain ⟨rfl, _⟩ := bindText_eq_ok hg
    obtain ⟨rfl, _⟩ := bindText_eq_ok hu
    obtain rfl := bindBigInt_eq_ok hat
    by_cases hany : (s.form_tokens.any fun r => decide (r.token = tok)) = true
    · rw [if_pos hany] at h; cases h
    · rw [if_neg hany] at h
      injection h with h
      refine ⟨?_, h.symm⟩
      intro r hr heq
      exact hany (List.any_eq_true.2 ⟨r, hr, by simpa using heq⟩)
  · cases h
  · cases h
  · cases h
  · cases h

theorem createToken_snd (body : JsVal) (rnd : Nat → ℚ) (now : Int) (s : Store) :
    (createToken body rnd now s).2 = s ∨
    ∃ row : TokenRow, (∀ r ∈ s.form_tokens, r.token ≠ row.token) ∧
      (createToken body rnd now s).2 =
        ⟨s.form_tokens ++ [row], s.form_submissions, s.idSeq⟩ := by
  unfold createToken
  split
  · rename_i guildId userId _ _
    split
    · exact Or.inl rfl
    · dsimp only
      generalize randToken rnd = tok
      cases hi : insertToken s tok guildId userId now with
      | error e => exact Or.inl rfl
      | ok s1 =>
        obtain ⟨hfresh, rfl⟩ := insertToken_ok hi
        exact Or.inr ⟨⟨tok, guildId, userId, false, now⟩, hfresh, rfl⟩
  · exact Or.inl rfl
  · exact Or.inl rfl

theorem insertSubmission_snd (s : Store) (guildId userId discordTag : Option String)
    (nick : String) (idade : JsNum) (motivo linkBonde : String) (createdAt : Int) :
    ∃ extra seq, (insertSubmission s guildId userId discordTag nick idade motivo linkBonde
      createdAt).2 = ⟨s.form_tokens, s.form_submissions ++ extra, seq⟩ := by
  unfold insertSubmission
  split
  · exact ⟨[], s.idSeq, by simp⟩
  · split
    · exact ⟨[], s.idSeq, by simp⟩
    · dsimp only
      split
      · split
        · exact ⟨[], s.idSeq + 1, by simp⟩
        · exact ⟨_, _, rfl⟩
      · exact ⟨[], s.idSeq + 1, by simp⟩

theorem markTokenUsed_ok {s s1 : Store} {token : String} (h : markTokenUsed s token = .ok s1) :
    hasNul token = false ∧ s1 = ⟨s.form_tokens.map
      (fun r => if r.token = token then { r with used := true } else r),
      s.form_submissions, s.idSeq⟩ := by
  unfold markTokenUsed at h
  cases ht : bindText token with
  | error e => rw [ht] at h; cases h
  | ok tok =>
    obtain ⟨rfl, hn⟩ := bindText_eq_ok ht
    rw [ht] at h
    injection h with h
    exact ⟨hn, h.symm⟩

theorem selectToken_ok {s : Store} {token : String} {rows : List TokenRow}
    (h : selectToken s token = .ok rows) :
    hasNul token = false ∧ rows = s.form_tokens.filter (fun r => r.token = token) := by
  unfold selectToken at h
  cases ht : bindText token with
  | error e => rw [ht] at h; cases h
  | ok tok =>
    obtain ⟨rfl, hn⟩ := bindText_eq_ok ht
    rw [ht] at h
    injection h with h
    exact ⟨hn, h.symm⟩

theorem submit_snd (body : JsVal) (now : Int) (s : Store) :
    (submit body now s).2 = s ∨
    ∃ tok extra seq, (submit body now s).2 =
      ⟨s.form_tokens.map (fun r => if r.token = tok then { r with used := true } else r),
        s.form_submissions ++ extra, seq⟩ := by
  unfold submit
  split
  · exact Or.inl rfl
  · rename_i f _
    split
    · exact Or.inl rfl
    · split
      · exact Or.inl rfl
      · exact Or.inl rfl
      · rename_i t _ _
        split
        · exact Or.inl rfl
        · cases hm : markTokenUsed s f.token with
          | error e => exact Or.inl rfl
          | ok s1 =>
            obtain ⟨_, rfl⟩ := markTokenUsed_ok hm
            right
            obtain ⟨extra, seq, h⟩ := insertSubmission_snd
              ⟨s.form_tokens.map
                (fun r => if r.token = f.token then { r with used := true } else r),
                s.form_submissions, s.idSeq⟩
              (rowText t.guildId) (rowText t.userId) f.discordTag f.nick f.idade f.motivo
              f.linkBonde now
            refine ⟨f.token, extra, seq, ?_⟩
            dsimp only
            split <;> rename_i heq <;> rw [heq] at h <;> exact h

theorem decideAction_snd (body : JsVal) (s : Store) :
    (decideAction body s).2 = s ∨
    ∃ decision i, textField body "decision" = .ok decision ∧
      (decision = "approved" ∨ decision = "rejected") ∧
      (∃ n, toNum (field body "id") = .ok n ∧ bindInt n = .ok i) ∧
      (decideAction body s).2 = ⟨s.form_tokens,
        s.form_submissions.map
          (fun r => if r.id = i then { r with status := decision } else r), s.idSeq⟩ := by
  unfold decideAction
  split
  · rename_i id decision hn hd
    split
    · exact Or.inl rfl
    · rename_i hgood
      have hdec : decision = "approved" ∨ decision = "rejected" := by
        by_contra hcon
        exact hgood (Or.inr hcon)
      cases hu : updateStatus s decision id with
      | error e => exact Or.inl rfl
      | ok s1 =>
        obtain ⟨i, hi, _, rfl⟩ := updateStatus_ok hu
        exact Or.inr ⟨decision, i, hd, hdec, ⟨id, hn, hi⟩, rfl⟩
  · exact Or.inl rfl
  · exact Or.inl rfl

theorem markLogged_snd (body : JsVal) (s : Store) :
    (markLogged body s).2 = s ∨
    ∃ i, (markLogged body s).2 = ⟨s.form_tokens,
        s.form_submissions.map
          (fun r => if r.id = i then { r with logged := true } else r), s.idSeq⟩ := by
  unfold markLogged
  split
  · exact Or.inl rfl
  · rename_i id _
    split
    · exact Or.inl rfl
    · unfold updateLogged
      cases hb : bindInt id with
      | error e => exact Or.inl rfl
      | ok i => exact Or.inr ⟨i, rfl⟩

/-! ## The status of a submission -/

theorem isFinite_of_bindInt {n : JsNum} {i : Int} (h : bindInt n = .ok i) :
    n.isFinite = true := by
  cases n <;> simp_all [bindInt, JsNum.isFinite]

/-- A `decide` that the handler carries out answers 200 and rewrites the status of the rows
with that id, whatever it was. -/
theorem decide_carried {env : Env} {req : Request} {i : Int} {d : String}
    (h : DecidesOn env req i d) (rnd : Nat → ℚ) (now : Int) (s : Store) :
    handler env req rnd now s = (⟨200, .ok⟩, ⟨s.form_tokens,
      s.form_submissions.map (fun r => if r.id = i then { r with status := d } else r),
      s.idSeq⟩) := by
  obtain ⟨hr, hd, hdec, n, hn, hi⟩ := h
  have hgood : ¬ (¬ n.isFinite = true ∨ ¬ (d = "approved" ∨ d = "rejected")) := by
    simp [isFinite_of_bindInt hi, hdec]
  rw [handler_decide hr]
  simp only [decideAction, hn, hd]
  rw [if_neg hgood, updateStatus_eq hdec hi]
  rfl

/-- C3, as stated, fails: a `decide` request on a submission that is already `approved`, with
decision `rejected`, answers 200 and the submission is `rejected` afterwards. -/
theorem decide_overwrites_decided_status :
    handler ⟨some "k", none⟩
      ⟨"POST", some "Bearer k", some (.obj [("action", .str "decide"), ("id", .num (.fin 1)),
        ("decision", .str "rejected")])⟩
      (fun _ => 0) 7
      ⟨[], [⟨1, "g1", "u1", none, "Ana", 21, "x", "http://x", "approved", 5, false⟩], 1⟩ =
    (⟨200, .ok⟩,
      ⟨[], [⟨1, "g1", "u1", none, "Ana", 21, "x", "http://x", "rejected", 5, false⟩], 1⟩) := by
  decide

/-- C3, amended: a submission whose status is `approved` or `rejected` keeps, through every
request, its place in the table and its id, and a status that is `approved` or `rejected`
(never `pending` again).  When the request is a `decide` that the handler carries out on the
submission's id (an authorised POST with action `decide`, `Number(id)` that id, the trimmed
decision `approved` or `rejected`), the status afterwards is the decision of that request,
whatever it was before; for every other request it is the status before the request. -/
theorem decided_status_stays_decided (env : Env) (req : Request) (rnd : Nat → ℚ) (now : Int)
    (s : Store) (i : Nat) (r : Submission) (hr : s.form_submissions[i]? = some r)
    (hdone : r.status = "approved" ∨ r.status = "rejected") :
    ∃ r', (handler env req rnd now s).2.form_submissions[i]? = some r' ∧ r'.id = r.id ∧
      (r'.status = "approved" ∨ r'.status = "rejected") ∧
      (∀ d, DecidesOn env req r.id d → r'.status = d) ∧
      ((¬ ∃ d, DecidesOn env req r.id d) → r'.status = r.status) := by
  by_cases hex : ∃ d, DecidesOn env req r.id d
  · obtain ⟨d, hd⟩ := hex
    rw [decide_carried hd rnd now s]
    refine ⟨{ r with status := d }, ?_, rfl, hd.2.2.1, ?_, fun h => absurd ⟨d, hd⟩ h⟩
    · show (s.form_submissions.map _)[i]? = _
      rw [List.getElem?_map, hr]
      simp
    · intro d' hd'
      have := hd.2.1.symm.trans hd'.2.1
      injection this
  have hi : i < s.form_submissions.length := (List.getElem?_eq_some.1 hr).1
  have keep : ∀ r' : Submission, r'.status = r.status →
      (r'.status = "approved" ∨ r'.status = "rejected") ∧
      (∀ d, DecidesOn env req r.id d → r'.status = d) ∧
      ((¬ ∃ d, DecidesOn env req r.id d) → r'.status = r.status) :=
    fun r' h => ⟨h ▸ hdone, fun d hd => absurd ⟨d, hd⟩ hex, fun _ => h⟩
  rcases handler_snd_cases env req rnd now s with h | ⟨_, h⟩ | ⟨_, h⟩ | ⟨hd, h⟩ | ⟨_, h⟩
  · rw [h]; exact ⟨r, hr, rfl, keep r rfl⟩
  · rw [h]
    rcases createToken_snd (readBody req) rnd now s with h2 | ⟨row, _, h2⟩ <;> rw [h2]
    · exact ⟨r, hr, rfl, keep r rfl⟩
    · exact ⟨r, hr, rfl, keep r rfl⟩
  · rw [h]
    rcases submit_snd (readBody req) now s with h2 | ⟨tok, extra, seq, h2⟩ <;> rw [h2]
    · exact ⟨r, hr, rfl, keep r rfl⟩
    · refine ⟨r, ?_, rfl, keep r rfl⟩
      show (s.form_submissions ++ extra)[i]? = some r
      rw [List.getElem?_append_left hi]; exact hr
  · rw [h]
    rcases decideAction_snd (readBody req) s with h2 | ⟨d, j, hd1, hd2, hd3, h2⟩ <;> rw [h2]
    · exact ⟨r, hr, rfl, keep r rfl⟩
    · by_cases hj : r.id = j
      · exact absurd ⟨d, hd, hd1, hd2, hj ▸ hd3⟩ hex
      · refine ⟨r, ?_, rfl, keep r rfl⟩
        show (s.form_submissions.map _)[i]? = _
        rw [List.getElem?_map, hr]
        simp [hj]
  · rw [h]
    rcases markLogged_snd (readBody req) s with h2 | ⟨j, h2⟩ <;> rw [h2]
    · exact ⟨r, hr, rfl, keep r rfl⟩
    · by_cases hj : r.id = j
      · refine ⟨{ r with logged := true }, ?_, rfl, keep _ rfl⟩
        show (s.form_submissions.map _)[i]? = _
        rw [List.getElem?_map, hr]
        simp [hj]
      · refine ⟨r, ?_, rfl, keep r rfl⟩
        show (s.form_submissions.map _)[i]? = _
        rw [List.getElem?_map, hr]
        simp [hj]

theorem decided_status_stays_decided_witness :
    ∃ r', (handler ⟨some "k", none⟩
        ⟨"POST", some "Bearer k", some (.obj [("action", .str "decide"),
          ("id", .num (.fin 1)), ("decision", .str "approved")])⟩
        (fun _ => 0) 7
        ⟨[], [⟨1, "g1", "u1", none, "Ana", 21, "x", "http://x", "rejected", 5, false⟩],
          1⟩).2.form_submissions[0]? = some r' ∧
      r'.status = "approved" := by
  obtain ⟨r', h1, _, _, h4, _⟩ := decided_status_stays_decided ⟨some "k", none⟩
    ⟨"POST", some "Bearer k", some (.obj [("action", .str "decide"),
      ("id", .num (.fin 1)), ("decision", .str "approved")])⟩
    (fun _ => 0) 7
    ⟨[], [⟨1, "g1", "u1", none, "Ana", 21, "x", "http://x", "rejected", 5, false⟩], 1⟩
    0 ⟨1, "g1", "u1", none, "Ana", 21, "x", "http://x", "rejected", 5, false⟩ rfl
    (Or.inr rfl)
  exact ⟨r', h1, h4 "approved"
    ⟨by decide, by decide, Or.inl rfl, .fin 1, by decide, by decide⟩⟩

/-! ## The life of a token -/

theorem consumed_map_used {s : Store} {t : TokenRow} {tok : String}
    (ht : t ∈ s.form_tokens) (htok : t.token = tok) :
    (∃ r ∈ s.form_tokens.map
        (fun r => if r.token = tok then { r with used := true } else r), r.token = tok) ∧
    ∀ r ∈ s.form_tokens.map
        (fun r => if r.token = tok then { r with used := true } else r),
      r.token = tok → r.used = true := by
  constructor
  · refine ⟨{ t with used := true }, ?_, htok⟩
    simp only [List.mem_map]
    exact ⟨t, ht, by simp [htok]⟩
  · intro r hr hrt
    simp only [List.mem_map] at hr
    obtain ⟨r0, _, rfl⟩ := hr
    by_cases h0 : r0.token = tok
    · simp [h0]
    · rw [if_neg h0] at hrt
      exact absurd hrt h0

theorem consumed_of_tokens {s s1 : Store} {tok : String}
    (h : s1.form_tokens = s.form_tokens) (hc : Consumed s tok) : Consumed s1 tok := by
  unfold Consumed at *
  rw [h]; exact hc

/-- A `submit` that answers 200 had a token free of U+0000 and leaves it consumed. -/
theorem submit_ok_consumed {body : JsVal} {now : Int} {s s1 : Store} {f : SubmitFields}
    {res : Response} (hf : submitFields body = .ok f)
    (h : submit body now s = (.ok res, s1)) (hres : res.status = 200) :
    hasNul f.token = false ∧ Consumed s1 f.token := by
  by_cases hvalid : f.token ≠ "" ∧ f.nick ≠ "" ∧ f.motivo ≠ "" ∧ f.linkBonde ≠ "" ∧
      f.idade.isFinite = true
  swap
  · have hbad : f.token = "" ∨ f.nick = "" ∨ f.motivo = "" ∨ f.linkBonde = "" ∨
        f.idade.isFinite = false := by
      by_contra hcon
      apply hvalid
      simp only [not_or] at hcon
      exact ⟨hcon.1, hcon.2.1, hcon.2.2.1, hcon.2.2.2.1, by simpa using hcon.2.2.2.2⟩
    rw [submit_invalid now s hf hbad] at h
    simp only [Prod.mk.injEq, Except.ok.injEq] at h
    rw [← h.1] at hres
    simp at hres
  rw [submit_valid now s hf hvalid] at h
  cases hsel : selectToken s f.token with
  | error e => rw [hsel] at h; simp at h
  | ok rows =>
    obtain ⟨hn, hrows⟩ := selectToken_ok hsel
    rw [hsel] at h
    cases rows with
    | nil =>
      simp only [Prod.mk.injEq, Except.ok.injEq] at h
      rw [← h.1] at hres
      simp [json] at hres
    | cons t rest =>
      have htm : t ∈ s.form_tokens.filter (fun r => r.token = f.token) := by
        rw [← hrows]; exact List.mem_cons_self _ _
      obtain ⟨ht, htok⟩ := List.mem_filter.1 htm
      have htok : t.token = f.token := by simpa using htok
      dsimp only at h
      by_cases hu : t.used = true
      · rw [if_pos hu] at h
        simp only [Prod.mk.injEq, Except.ok.injEq] at h
        rw [← h.1] at hres
        simp [json] at hres
      · rw [if_neg hu] at h
        cases hm : markTokenUsed s f.token with
        | error e => rw [hm] at h; simp at h
        | ok s2 =>
          obtain ⟨_, rfl⟩ := markTokenUsed_ok hm
          rw [hm] at h
          dsimp only at h
          obtain ⟨extra, seq, hins⟩ := insertSubmission_snd
            ⟨s.form_tokens.map
              (fun r => if r.token = f.token then { r with used := true } else r),
              s.form_submissions, s.idSeq⟩
            (rowText t.guildId) (rowText t.userId) f.discordTag f.nick f.idade f.motivo
            f.linkBonde now
          have hs1 : s1.form_tokens = s.form_tokens.map
              (fun r => if r.token = f.token then { r with used := true } else r) := by
            split at h <;> rename_i heq <;> rw [heq] at hins <;> simp only [] at hins <;>
              injection h with _ h2 <;> rw [← h2, hins]
          refine ⟨hn, ?_⟩
          unfold Consumed
          rw [hs1]
          exact consumed_map_used ht htok

/-- No request takes a consumed token back. -/
theorem consumed_step (env : Env) (req : Request) (rnd : Nat → ℚ) (now : Int) (s : Store)
    (tok : String) (hc : Consumed s tok) : Consumed (handler env req rnd now s).2 tok := by
  rcases handler_snd_cases env req rnd now s with h | ⟨_, h⟩ | ⟨_, h⟩ | ⟨_, h⟩ | ⟨_, h⟩
  · rw [h]; exact hc
  · rw [h]
    rcases createToken_snd (readBody req) rnd now s with h2 | ⟨row, hfresh, h2⟩ <;> rw [h2]
    · exact hc
    · obtain ⟨⟨r, hr, hrt⟩, hused⟩ := hc
      refine ⟨⟨r, List.mem_append_left _ hr, hrt⟩, ?_⟩
      intro x hx hxt
      rcases List.mem_append.1 hx with hx | hx
      · exact hused x hx hxt
      · have hxr : x = row := by simpa using hx
        exact absurd (hrt.trans (hxt.symm.trans (by rw [hxr]))) (hfresh r hr)
  · rw [h]
    rcases submit_snd (readBody req) now s with h2 | ⟨tok2, extra, seq, h2⟩ <;> rw [h2]
    · exact hc
    · obtain ⟨⟨r, hr, hrt⟩, hused⟩ := hc
      constructor
      · refine ⟨if r.token = tok2 then { r with used := true } else r, ?_, ?_⟩
        · simp only [List.mem_map]
          exact ⟨r, hr, rfl⟩
        · by_cases h0 : r.token = tok2
          · rw [if_pos h0]; exact hrt
          · rw [if_neg h0]; exact hrt
      · intro x hx hxt
        simp only [List.mem_map] at hx
        obtain ⟨x0, hx0, rfl⟩ := hx
        by_cases h0 : x0.token = tok2
        · simp [h0]
        · rw [if_neg h0] at hxt ⊢
          exact hused x0 hx0 hxt
  · rw [h]
    rcases decideAction_snd (readBody req) s with h2 | ⟨d, j, _, _, _, h2⟩ <;> rw [h2]
    · exact hc
    · exact consumed_of_tokens rfl hc
  · rw [h]
    rcases markLogged_snd (readBody req) s with h2 | ⟨j, h2⟩ <;> rw [h2]
    · exact hc
    · exact consumed_of_tokens rfl hc

theorem consumed_run (s : Store) (cs : List Call) (tok : String) (hc : Consumed s tok) :
    Consumed (run s cs) tok := by
  induction cs generalizing s with
  | nil => exact hc
  | cons c cs ih =>
    show Consumed (run (call s c).2 cs) tok
    exact ih _ (consumed_step c.env c.req c.rnd c.now s tok hc)

/-- A valid `submit` on a consumed token answers 410 and changes nothing. -/
theorem submit_consumed {body : JsVal} {now : Int} {s : Store} {f : SubmitFields}
    (hf : submitFields body = .ok f)
    (hvalid : f.token ≠ "" ∧ f.nick ≠ "" ∧ f.motivo ≠ "" ∧ f.linkBonde ≠ "" ∧
      f.idade.isFinite = true)
    (hn : hasNul f.token = false)
    (hc : Consumed s f.token) :
    submit body now s = (.ok ⟨410, .error "Token já usado"⟩, s) := by
  obtain ⟨⟨r, hr, hrt⟩, hused⟩ := hc
  have hmem : r ∈ s.form_tokens.filter (fun r => r.token = f.token) :=
    List.mem_filter.2 ⟨hr, by simpa using hrt⟩
  rw [submit_valid now s hf hvalid]
  simp only [selectToken, bindText_ok hn]
  cases hsel : s.form_tokens.filter (fun r => decide (r.token = f.token)) with
  | nil => rw [hsel] at hmem; cases hmem
  | cons t rest =>
    have htm : t ∈ s.form_tokens.filter (fun r => decide (r.token = f.token)) := by
      rw [hsel]; exact List.mem_cons_self _ _
    obtain ⟨ht, htok⟩ := List.mem_filter.1 htm
    have hu : t.used = true := hused t ht (by simpa using htok)
    simp [hu, json]

/-- C1: requests are handled one at a time.  Once a `submit` whose trimmed token is `T` has
answered 200 with an id, every later `submit` (an authorised POST) whose trimmed token is `T`
and whose other fields are valid answers 410 `Token já usado` and returns the store as it was,
whatever requests, of whatever kind, were handled in between. -/
theorem token_consumed_at_most_once (s : Store) (first : Call) (between : List Call)
    (last : Call) (f1 f2 : SubmitFields) (id : Int)
    (h1 : Reaches first.env first.req "submit")
    (hf1 : submitFields (readBody first.req) = .ok f1)
    (hok : (call s first).1 = ⟨200, .okId id⟩)
    (h2 : Reaches last.env last.req "submit")
    (hf2 : submitFields (readBody last.req) = .ok f2)
    (hsame : f2.token = f1.token)
    (hvalid : f2.nick ≠ "" ∧ f2.motivo ≠ "" ∧ f2.linkBonde ≠ "" ∧ f2.idade.isFinite = true) :
    call (run (call s first).2 between) last =
      (⟨410, .error "Token já usado"⟩, run (call s first).2 between) := by
  have hcall : call s first = caught (submit (readBody first.req) first.now s) :=
    handler_submit h1 first.rnd first.now s
  have hsub : ∃ res s1, submit (readBody first.req) first.now s = (.ok res, s1) ∧
      res.status = 200 ∧ (call s first).2 = s1 := by
    rw [hcall] at hok ⊢
    rcases hx : submit (readBody first.req) first.now s with ⟨res | res, s1⟩
    · rw [hx] at hok
      simp [caught, json] at hok
    · rw [hx] at hok
      refine ⟨res, s1, rfl, ?_, rfl⟩
      have : res = ⟨200, .okId id⟩ := hok
      rw [this]
  obtain ⟨res, s1, hs, hres, hs1⟩ := hsub
  have hc1 : Consumed (call s first).2 f1.token := by
    rw [hs1]; exact (submit_ok_consumed hf1 hs hres).2
  have hnul : hasNul f2.token = false := by
    rw [hsame]; exact (submit_ok_consumed hf1 hs hres).1
  have hc2 : Consumed (run (call s first).2 between) f2.token := by
    rw [hsame]; exact consumed_run _ _ _ hc1
  have hne : f2.token ≠ "" := by
    intro h0
    have hbad := submit_invalid first.now s hf1 (Or.inl (hsame ▸ h0))
    rw [hbad] at hs
    injection hs with hs _
    injection hs with hs
    rw [← hs] at hres
    simp at hres
  show handler last.env last.req last.rnd last.now _ = _
  rw [handler_submit h2, submit_consumed hf2 ⟨hne, hvalid⟩ hnul hc2]
  rfl

theorem token_consumed_at_most_once_witness :
    call (run (call ⟨[⟨"T", "g1", "u1", false, 1⟩], [], 0⟩
        ⟨⟨some "k", none⟩, ⟨"POST", some "Bearer k", some (.obj [("action", .str "submit"),
          ("token", .str "T"), ("nick", .str "Ana"), ("idade", .num (.fin 21)),
          ("motivo", .str "x"), ("linkBonde", .str "http://x")])⟩, fun _ => 0, 7⟩).2
        [⟨⟨some "k", none⟩, ⟨"POST", some "Bearer k", some (.obj [("action", .str "decide"),
          ("id", .num (.fin 1)), ("decision", .str "approved")])⟩, fun _ => 0, 8⟩])
      ⟨⟨some "k", none⟩, ⟨"POST", some "Bearer k", some (.obj [("action", .str "submit"),
        ("token", .str " T "), ("nick", .str "Bia"), ("idade", .num (.fin 30)),
        ("motivo", .str "y"), ("linkBonde", .str "http://y")])⟩, fun _ => 0, 9⟩ =
    (⟨410, .error "Token já usado"⟩,
      run (call ⟨[⟨"T", "g1", "u1", false, 1⟩], [], 0⟩
        ⟨⟨some "k", none⟩, ⟨"POST", some "Bearer k", some (.obj [("action", .str "submit"),
          ("token", .str "T"), ("nick", .str "Ana"), ("idade", .num (.fin 21)),
          ("motivo", .str "x"), ("linkBonde", .str "http://x")])⟩, fun _ => 0, 7⟩).2
        [⟨⟨some "k", none⟩, ⟨"POST", some "Bearer k", some (.obj [("action", .str "decide"),
          ("id", .num (.fin 1)), ("decision", .str "approved")])⟩, fun _ => 0, 8⟩]) :=
  token_consumed_at_most_once _ _ _ _ ⟨"T", none, "Ana", .fin 21, "x", "http://x"⟩
    ⟨"T", none, "Bia", .fin 30, "y", "http://y"⟩ 1 (by decide) (by decide) (by decide)
    (by decide) (by decide) rfl (by decide)

/-- C2, the failing input: the token is unused and every text field is valid, `idade` is
21.5, a finite number.  The request passes validation, the token is marked used, the insert is
refused because `idade` is an `INT` column, and the response is 500: the token is spent and
no submission exists. -/
theorem submit_fractional_idade_spends_token :
    handler ⟨some "k", none⟩
      ⟨"POST", some "Bearer k", some (.obj [("action", .str "submit"),
        ("token", .str "ABCDEFGHJKLMNPQRSTUVWXYZ"), ("nick", .str "Ana"),
        ("idade", .num (.fin (mkRat 43 2))), ("motivo", .str "x"),
        ("linkBonde", .str "http://x")])⟩
      (fun _ => 0) 7 ⟨[⟨"ABCDEFGHJKLMNPQRSTUVWXYZ", "g1", "u1", false, 1⟩], [], 0⟩ =
    (⟨500, .thrown .invalidInteger⟩,
      ⟨[⟨"ABCDEFGHJKLMNPQRSTUVWXYZ", "g1", "u1", true, 1⟩], [], 0⟩) := by
  decide

/-- What `submit` does when `idade` is a 32-bit integer and no text carries U+0000: for valid
fields and a token whose first row `t` is unused, with non-empty guildId and userId, and an id
sequence below 2147483647 and ahead of the ids in the table, at a time that fits `BIGINT`,
the response is 200 with the next
id, the rows of that token are marked used and one row is appended to `form_submissions`;
nothing else changes. -/
theorem submit_integer_idade (env : Env) (req : Request) (rnd : Nat → ℚ) (now : Int)
    (s : Store) (f : SubmitFields) (t : TokenRow) (rest : List TokenRow) (age : Int)
    (hr : Reaches env req "submit") (hf : submitFields (readBody req) = .ok f)
    (hvalid : f.token ≠ "" ∧ f.nick ≠ "" ∧ f.motivo ≠ "" ∧ f.linkBonde ≠ "" ∧
      f.idade.isFinite = true)
    (hage : bindInt f.idade = .ok age)
    (hnul : hasNul f.token = false ∧ hasNul f.nick = false ∧ hasNul f.motivo = false ∧
      hasNul f.linkBonde = false ∧ bindNullable f.discordTag = .ok f.discordTag)
    (hsel : selectToken s f.token = .ok (t :: rest)) (hunused : t.used = false)
    (hg : t.guildId ≠ "" ∧ hasNul t.guildId = false)
    (hu : t.userId ≠ "" ∧ hasNul t.userId = false)
    (hseq : s.idSeq < 2147483647 ∧ ∀ r ∈ s.form_submissions, r.id ≠ s.idSeq + 1)
    (hnow : -9223372036854775808 ≤ now ∧ now ≤ 9223372036854775807) :
    handler env req rnd now s =
      (⟨200, .okId (s.idSeq + 1)⟩,
        ⟨s.form_tokens.map (fun r => if r.token = f.token then { r with used := true } else r),
         s.form_submissions ++ [⟨s.idSeq + 1, t.guildId, t.userId, f.discordTag, f.nick, age,
            f.motivo, f.linkBonde, "pending", now, false⟩],
         s.idSeq + 1⟩) := by
  obtain ⟨n1, n2, n3, n4, n5⟩ := hnul
  have hany : (s.form_submissions.any fun r => decide (r.id = s.idSeq + 1)) = false := by
    rw [List.any_eq_false]
    intro r hr
    simpa using hseq.2 r hr
  have hlt : ¬ (2147483647 ≤ s.idSeq) := not_le.mpr hseq.1
  have hb : bindSubmission (rowText t.guildId) (rowText t.userId) f.discordTag f.nick f.idade
      f.motivo f.linkBonde now =
      .ok ⟨some t.guildId, some t.userId, f.discordTag, f.nick, age, f.motivo, f.linkBonde,
        now⟩ := by
    have hgn : bindNullable (rowText t.guildId) = .ok (some t.guildId) := by
      simp [rowText, hg.1, bindNullable, bindText_ok hg.2, Except.map]
    have hun : bindNullable (rowText t.userId) = .ok (some t.userId) := by
      simp [rowText, hu.1, bindNullable, bindText_ok hu.2, Except.map]
    simp only [bindSubmission, hgn, hun, n5, bindText_ok n2, bindText_ok n3, bindText_ok n4,
      hage, bindBigInt_ok hnow]
  rw [handler_submit hr, submit_valid now s hf hvalid, hsel]
  simp [hunused, markTokenUsed, bindText_ok n1, insertSubmission, hb, hlt, hany, caught, json]

theorem submit_integer_idade_witness :
    handler ⟨some "k", none⟩
      ⟨"POST", some "Bearer k", some (.obj [("action", .str "submit"), ("token", .str "T"),
        ("nick", .str " Ana "), ("idade", .num (.fin 21)), ("motivo", .str "x"),
        ("linkBonde", .str "http://x")])⟩
      (fun _ => 0) 7 ⟨[⟨"T", "g1", "u1", false, 1⟩], [], 0⟩ =
    (⟨200, .okId 1⟩, ⟨[⟨"T", "g1", "u1", true, 1⟩],
      [⟨1, "g1", "u1", none, "Ana", 21, "x", "http://x", "pending", 7, false⟩], 1⟩) :=
  submit_integer_idade _ _ _ _ _ ⟨"T", none, "Ana", .fin 21, "x", "http://x"⟩
    ⟨"T", "g1", "u1", false, 1⟩ [] 21 (by decide) (by decide) (by decide) (by decide)
    (by decide) (by decide) rfl (by decide) (by decide) (by decide) (by decide)


end FormGateway
